import Mathlib

/-!
Persistent store and radio state of the 6-band QRP transceiver firmware.

A shallow embedding of the EEPROM access routines and of the parts of `main`
that use them (`src/midi6.c`, ATmega128, avr-gcc).

Conventions of the embedding
* C `int` is 16 bit on the target: values of type `int` are `Int`, and
  `wrap_int` is applied where an `int` expression is evaluated.
* `unsigned long` is 32 bit: values are `Nat`, arithmetic is taken modulo
  `2^32` (`add32`, `sub32`).
* `unsigned char` / `uint8_t` values are `Nat` below 256.
* Data pointers are 16 bit: `ptr_of_int` converts an `int` to a byte address.
* The EEPROM is a map from byte address to byte value; `eeprom_is_ready`
  busy-waiting, `cli`/`sei` and the display routines have no effect on the
  modelled state and are left out, except that the frequencies written to the
  companion line of the display (`show_frequency2` at column 8, row 9) are
  recorded.
-/

namespace Midi6

/-! ## Machine integers -/

/-- Value of an expression of type `int` (16 bit, wrapping). -/
def wrap_int (x : Int) : Int := (x + 32768) % 65536 - 32768

/-- Conversion of an `int` to `unsigned long`. -/
def u32_of_int (x : Int) : Nat := (x % 4294967296).toNat

/-- Conversion of an `int` to `uint8_t`. -/
def u8_of_int (x : Int) : Nat := (x % 256).toNat

/-- Conversion of an `unsigned long` to `int` (keeps the low 16 bits). -/
def int_of_u32 (x : Nat) : Int := wrap_int (x : Int)

/-- Addition of two `unsigned long` values. -/
def add32 (a b : Nat) : Nat := (a + b) % 4294967296

/-- Subtraction of two `unsigned long` values. -/
def sub32 (a b : Nat) : Nat := (a % 4294967296 + 4294967296 - b % 4294967296) % 4294967296

/-- Cast `(uint8_t*)adr` of an `int` to a byte address. -/
def ptr_of_int (adr : Int) : Nat := (adr % 65536).toNat

/-- Pointer arithmetic `p + k` on a `uint8_t*`. -/
def ptr_add (p k : Nat) : Nat := (p + k) % 65536

/-- Read of `xs[i]` for an array of `unsigned long`; an index outside the array
is undefined in C and reads 0 here. -/
def arr_get (xs : List Nat) (i : Int) : Nat :=
  if 0 ≤ i then xs.getD i.toNat 0 else 0

/-- Assignment `xs[i] = v` for an array of `unsigned long`; an index outside the
array is undefined in C and is ignored here. -/
def arr_set (xs : List Nat) (i : Int) (v : Nat) : List Nat :=
  if 0 ≤ i then xs.set i.toNat v else xs

/-- Read of `xs[i]` for an array of `int`. -/
def iarr_get (xs : List Int) (i : Int) : Int :=
  if 0 ≤ i then xs.getD i.toNat 0 else 0

/-- Assignment `xs[i] = v` for an array of `int`. -/
def iarr_set (xs : List Int) (i : Int) (v : Int) : List Int :=
  if 0 ≤ i then xs.set i.toNat v else xs

/-! ## Configuration (`IFOPTION == 0`) and band tables -/

def INTERFREQUENCY : Nat := 9000000
def F_LO_LSB : Nat := 8998130
def F_LO_USB : Nat := 9001420
def MAXMEM : Int := 15

def std_sideband : List Int := [0, 0, 0, 1, 1, 1]
def c_freq : List Nat := [1950000, 3650000, 7120000, 14180000, 21290000, 28500000]
def band_f0 : List Nat := [1810000, 3500000, 7000000, 14000000, 21000000, 28000000]
def band_f1 : List Nat := [2000000, 3800000, 7200000, 14350000, 21450000, 29700000]

/-! ## EEPROM -/

/-- EEPROM contents: byte address to byte value. -/
abbrev Eeprom := Nat → Nat

/-- The avr-libc call `eeprom_read_byte`. -/
def eeprom_read_byte (e : Eeprom) (adr : Nat) : Nat := e adr % 256

/-- The avr-libc call `eeprom_write_byte`; the value is converted to `uint8_t`. -/
def eeprom_write_byte (e : Eeprom) (adr : Nat) (v : Nat) : Eeprom :=
  fun a => if a = adr then v % 256 else e a

/-- C function `store_frequency1(f, start_adr)`: four bytes, most significant first. -/
def store_frequency1 (e : Eeprom) (f : Nat) (start_adr : Int) : Eeprom :=
  let hiword := f / 65536
  let loword := sub32 f (hiword * 65536 % 4294967296)
  let hmsb := hiword / 256 % 256
  let hlsb := sub32 hiword (u32_of_int (wrap_int ((hmsb : Int) * 256))) % 256
  let lmsb := loword / 256 % 256
  let llsb := sub32 loword (u32_of_int (wrap_int ((lmsb : Int) * 256))) % 256
  let p := ptr_of_int start_adr
  let e1 := eeprom_write_byte e p hmsb
  let e2 := eeprom_write_byte e1 (ptr_add p 1) hlsb
  let e3 := eeprom_write_byte e2 (ptr_add p 2) lmsb
  eeprom_write_byte e3 (ptr_add p 3) llsb

/-- C function `load_frequency1(start_adr)`. -/
def load_frequency1 (e : Eeprom) (start_adr : Int) : Nat :=
  let p := ptr_of_int start_adr
  let hmsb := eeprom_read_byte e p
  let hlsb := eeprom_read_byte e (ptr_add p 1)
  let lmsb := eeprom_read_byte e (ptr_add p 2)
  let llsb := eeprom_read_byte e (ptr_add p 3)
  add32 (add32 (add32 (16777216 * hmsb % 4294967296) (65536 * hlsb % 4294967296))
    (256 * lmsb % 65536)) llsb

/-- C function `load_last_mem()`. -/
def load_last_mem (e : Eeprom) : Int := (eeprom_read_byte e 442 : Nat)

/-- C function `store_last_mem(mem)`. -/
def store_last_mem (e : Eeprom) (mem : Int) : Eeprom :=
  eeprom_write_byte e 127 (u8_of_int mem)

/-- C function `is_mem_freq_ok(f, cband)`. -/
def is_mem_freq_ok (f : Nat) (cband : Int) : Int :=
  if arr_get band_f0 cband ≤ f ∧ f ≤ arr_get band_f1 cband then 1 else 0

/-- C function `store_last_band(bandnum)`. -/
def store_last_band (e : Eeprom) (bandnum : Int) : Eeprom :=
  eeprom_write_byte e 440 (u8_of_int bandnum)

/-- C function `store_last_vfo(vfonum)`. -/
def store_last_vfo (e : Eeprom) (vfonum : Int) : Eeprom :=
  eeprom_write_byte e 441 (u8_of_int vfonum)

/-- C function `load_last_band()`. -/
def load_last_band (e : Eeprom) : Int :=
  let bandnum : Int := (eeprom_read_byte e 440 : Nat)
  if 0 ≤ bandnum ∧ bandnum ≤ 7 then bandnum else -1

/-- C function `load_last_vfo()`. -/
def load_last_vfo (e : Eeprom) : Int :=
  let vfonum : Int := (eeprom_read_byte e 441 : Nat)
  if 0 ≤ vfonum ∧ vfonum ≤ 15 then vfonum else -1

/-- C function `store_tx_preset(value, band)`: two bytes, high nibble first.
The shift `value >> 8` is the floor division by 256 and the masks `& 0x0f`,
`& 0xff` are the remainders modulo 16 and 256. -/
def store_tx_preset (e : Eeprom) (value : Int) (band : Int) : Eeprom :=
  let adr := wrap_int (484 + band * 2)
  let e1 := eeprom_write_byte e (ptr_of_int adr) (u8_of_int (value / 256 % 16))
  eeprom_write_byte e1 (ptr_of_int (wrap_int (adr + 1))) (u8_of_int (value % 256))

/-- C function `load_tx_preset(band)`. -/
def load_tx_preset (e : Eeprom) (band : Int) : Int :=
  let adr := wrap_int (484 + band * 2)
  let v := wrap_int ((eeprom_read_byte e (ptr_of_int adr) : Nat) * 256)
  wrap_int (v + (eeprom_read_byte e (ptr_of_int (wrap_int (adr + 1))) : Nat))

/-! ## Radio state -/

/-- Global variables of the firmware together with the locals of `main` that
live across iterations of its loop, the EEPROM, and the arguments of the calls
made to the two synthesizers (most recent call first). -/
structure Radio where
  eeprom : Eeprom
  cur_band : Int
  sideband : Int
  cur_vfo : Int
  alt_vfo : Int
  f_vfo : List Nat
  vfo_s : List Int
  split : Int
  txrx : Int
  last_memplace : Int
  s_threshold : Int
  scanfreq : List Nat
  tuningknob : Int
  tuningcount : Int
  curtone : Int
  curagc : Int
  curatt : Int
  tx_preset : List Int
  f_lo : List Nat
  blight : Int
  freq_temp0 : Nat
  freq_temp1 : Nat
  dds1_calls : List (Nat × Int)
  dds2_calls : List Nat
  companion_shown : List Nat

/-- C function `store_frequency0(f, mem)`. -/
def store_frequency0 (s : Radio) (f : Nat) (mem : Int) : Radio :=
  let start_adr := wrap_int (s.cur_band * 64 + mem * 4)
  { s with eeprom := store_frequency1 s.eeprom f start_adr }

/-- C function `load_frequency0(mem)`. -/
def load_frequency0 (s : Radio) (mem : Int) : Nat :=
  let start_adr := wrap_int (s.cur_band * 64 + mem * 4)
  load_frequency1 s.eeprom start_adr

/-- The call `set_frequency1(frequency)`, recorded with the sideband in effect. -/
def set_frequency1 (s : Radio) (frequency : Nat) : Radio :=
  { s with dds1_calls := (frequency, s.sideband) :: s.dds1_calls }

/-- The call `set_frequency2(f)`, recorded. -/
def set_frequency2 (s : Radio) (f : Nat) : Radio :=
  { s with dds2_calls := f :: s.dds2_calls }

/-- The call `show_frequency2(8, 9, f, bcolor, 100, 1)`, which writes the
companion frequency line of the display, recorded (most recent first). -/
def show_companion (s : Radio) (f : Nat) : Radio :=
  { s with companion_shown := f :: s.companion_shown }

/-- C function `show_all_data(f0, f1, ...)`: of what it draws, the companion
frequency `f1` is recorded. -/
def show_all_data (s : Radio) (f1 : Nat) : Radio := show_companion s f1

/-- State at the entry of `main` for a given EEPROM content: the initialised
globals, `curagc = 1`, `curtone = 1`, `cur_vfo = 0`, `alt_vfo = 1`. -/
def power_on (e : Eeprom) : Radio :=
  { eeprom := e, cur_band := 0, sideband := 0, cur_vfo := 0, alt_vfo := 1,
    f_vfo := [0, 0], vfo_s := [0, 0], split := 0, txrx := 0, last_memplace := 0,
    s_threshold := 30, scanfreq := [0, 0], tuningknob := 0, tuningcount := 0,
    curtone := 1, curagc := 1, curatt := 0, tx_preset := [0, 0, 0, 0, 0, 0],
    f_lo := [F_LO_LSB, F_LO_USB], blight := 128, freq_temp0 := 0, freq_temp1 := 0,
    dds1_calls := [], dds2_calls := [], companion_shown := [] }

/-- C function `set_tone(tone_value)`: the part that writes EEPROM byte 480. -/
def set_tone (s : Radio) (tone_value : Int) : Radio :=
  { s with eeprom := eeprom_write_byte s.eeprom 480 (u8_of_int tone_value) }

/-- C function `set_agc(agc_value)`: the part that writes EEPROM byte 481. -/
def set_agc (s : Radio) (agc_value : Int) : Radio :=
  { s with eeprom := eeprom_write_byte s.eeprom 481 (u8_of_int agc_value) }

/-- C function `set_att(att_value)`: the part that writes EEPROM byte 483. -/
def set_att (s : Radio) (att_value : Int) : Radio :=
  { s with eeprom := eeprom_write_byte s.eeprom 483 (u8_of_int att_value) }

/-- C function `calc_tuningfactor()`, on the value of `tuningcount`. -/
def calc_tuningfactor (tuningcount : Int) : Int :=
  wrap_int (wrap_int (tuningcount * tuningcount) * tuningcount)

/-! ## Startup load sequence of `main` -/

/-- Load of the last band used (`main`, "Load last band used"). -/
def startup_band (s : Radio) : Radio :=
  let cb := load_last_band s.eeprom
  let cb := if cb = -1 then 2 else cb
  { s with cur_band := cb, sideband := iarr_get std_sideband cb }

/-- Load of the VFO number (`main`, "Load VFO data and VFO number"). -/
def startup_vfo (s : Radio) : Radio :=
  let cv := load_last_vfo s.eeprom
  let cur_vfo : Int := if cv < 0 ∨ cv > 1 then 0 else cv
  let alt_vfo : Int := if cur_vfo ≠ 0 then 0 else 1
  { s with cur_vfo := cur_vfo, alt_vfo := alt_vfo }

/-- Body of the loop that loads VFO `t1` of the current band; the same text is
used at startup and in the band change of the main loop. -/
def load_vfo (s : Radio) (t1 : Int) : Radio :=
  let freq_temp0 := load_frequency0 s (wrap_int (s.cur_band + 96 + t1))
  let v := if is_mem_freq_ok freq_temp0 s.cur_band ≠ 0 then freq_temp0
    else arr_get c_freq s.cur_band
  { s with freq_temp0 := freq_temp0, f_vfo := arr_set s.f_vfo t1 v }

/-- Loop `for(t1 = 0; t1 < 2; t1++)` over `load_vfo`. -/
def load_vfos (s : Radio) : Radio := load_vfo (load_vfo s 0) 1

/-- Load of the last memory slot (`main`, "Load last stored freqeuncy"). -/
def startup_last_mem (s : Radio) : Radio :=
  let m := load_last_mem s.eeprom
  { s with last_memplace := if m < 0 ∨ m > 15 then 0 else m }

/-- Load of the scan threshold (`main`, "Load scan threshold"). -/
def startup_threshold (s : Radio) : Radio :=
  let t : Int := (eeprom_read_byte s.eeprom 129 : Nat)
  { s with s_threshold := if t < 0 ∨ t > 255 then 100 else t }

/-- Load of the scan edges at startup (`main`, "Load scan edge frequencies"),
followed by the split default `vfo_s = {0, 1}`. -/
def startup_scanfreq (s : Radio) : Radio :=
  let sf := arr_set s.scanfreq 0 (load_frequency0 s 108)
  let lo := arr_get band_f0 s.cur_band
  let hi := arr_get band_f1 s.cur_band
  let sf := if is_mem_freq_ok (arr_get sf 0) s.cur_band = 0 then arr_set (arr_set sf 0 lo) 1 hi
    else sf
  { s with scanfreq := sf, vfo_s := [0, 1] }

/-- Load of tone, AGC and attenuator (`main`, "Load sets"). -/
def startup_sets (s : Radio) : Radio :=
  let t : Int := (eeprom_read_byte s.eeprom 480 : Nat)
  let s1 := set_tone { s with curtone := if t < 0 ∨ t > 3 then 1 else t }
    (if t < 0 ∨ t > 3 then 1 else t)
  let a : Int := (eeprom_read_byte s1.eeprom 481 : Nat)
  let s2 := set_agc { s1 with curagc := if a < 0 ∨ a > 3 then 2 else a }
    (if a < 0 ∨ a > 3 then 2 else a)
  let c : Int := (eeprom_read_byte s2.eeprom 483 : Nat)
  set_att { s2 with curatt := if c < 0 ∨ c > 1 then 0 else c }
    (if c < 0 ∨ c > 1 then 0 else c)

/-- Body of the loop that loads LO frequency `t1` (`main`, "Load LO frequencies
if available"). -/
def startup_lo (s : Radio) (t1 : Int) : Radio :=
  let lo := arr_set s.f_lo t1 (load_frequency1 s.eeprom (wrap_int (t1 + 128)))
  let lo := if arr_get lo t1 < F_LO_LSB - 2000 ∨ arr_get lo t1 > F_LO_USB + 2000 then
      (if t1 = 0 then arr_set lo t1 F_LO_LSB else arr_set lo t1 F_LO_USB)
    else lo
  { s with f_lo := lo }

/-- One pass of the loop that programs both synthesizers at startup. -/
def startup_tune (s : Radio) : Radio :=
  set_frequency2 (set_frequency1 s (arr_get s.f_vfo s.cur_vfo)) (arr_get s.f_lo s.sideband)

/-- Load of the backlight level. -/
def startup_blight (s : Radio) : Radio :=
  let b : Int := (eeprom_read_byte s.eeprom 482 : Nat)
  { s with blight := if b < 0 ∨ b > 255 then 128 else b }

/-- Load of the six TX presets (`main`, "Load TX preset values"). -/
def startup_tx_preset (s : Radio) : Radio :=
  { s with tx_preset := (List.range 6).map (fun t1 => load_tx_preset s.eeprom (t1 : Int)) }

/-- The startup load sequence of `main`, from "Load start values" to the entry
of the main loop. -/
def startup (s : Radio) : Radio :=
  let s1 := startup_band s
  let s2 := startup_vfo s1
  let s3 := load_vfos s2
  let s4 := startup_last_mem s3
  let s5 := startup_threshold s4
  let s6 := startup_scanfreq s5
  let s7 := startup_sets s6
  let s7a := show_all_data s7 (arr_get s7.f_vfo s7.alt_vfo)
  let s8 := startup_lo (startup_lo s7a 0) 1
  let s9 := startup_tune (startup_tune (startup_tune (startup_tune (startup_tune s8))))
  let s10 := startup_blight s9
  startup_tx_preset s10

/-! ## Interactive screens

A screen polls the encoder and the keys in a loop that runs until `get_keys`
returns a key. Its run is described by the list `turns` of the values of
`tuningknob` found at the start of each pass of the loop (the interrupt
handler sets it between passes) and by the key `key` (1, 2 or 3) that ends
the loop; key 2 confirms. -/

/-- Recall of slot `mem_addr` inside `save_mem_freq` after the knob moved:
the synthesizers are retuned when the slot holds a frequency of the band. -/
def save_mem_freq_show (s : Radio) (mem_addr : Int) : Radio :=
  let mem_freq := load_frequency0 s mem_addr
  if is_mem_freq_ok mem_freq s.cur_band ≠ 0 then
    set_frequency2 (set_frequency1 s mem_freq) (arr_get s.f_lo s.sideband)
  else s

/-- One pass of the selection loop of `save_mem_freq`. -/
def save_mem_freq_pass (sm : Radio × Int) (knob : Int) : Radio × Int :=
  let s0 := { sm.1 with tuningknob := knob }
  let sm1 : Radio × Int :=
    if s0.tuningknob ≤ -1 then
      let m := if sm.2 > 0 then wrap_int (sm.2 - 1) else MAXMEM
      (save_mem_freq_show { s0 with tuningknob := 0 } m, m)
    else (s0, sm.2)
  if sm1.1.tuningknob ≥ 1 then
    let m := if sm1.2 < MAXMEM then wrap_int (sm1.2 + 1) else 0
    (save_mem_freq_show { sm1.1 with tuningknob := 0 } m, m)
  else sm1

/-- C function `save_mem_freq(f, mem)`; returns the state and the result. -/
def save_mem_freq (s : Radio) (f : Nat) (mem : Int) (turns : List Int) (key : Int) :
    Radio × Int :=
  let s0 := if is_mem_freq_ok (load_frequency0 s mem) s.cur_band ≠ 0 then
      set_frequency1 s (load_frequency0 s mem)
    else s
  let sm := turns.foldl save_mem_freq_pass (s0, mem)
  if key = 2 then
    let s1 := { sm.1 with eeprom := store_last_mem sm.1.eeprom sm.2 }
    (store_frequency0 s1 f sm.2, sm.2)
  else (sm.1, -1)

/-- Menu result 60 of the main loop: store the operating frequency. -/
def main_case60 (s : Radio) (turns : List Int) (key : Int) : Radio :=
  let r := save_mem_freq s (arr_get s.f_vfo s.cur_vfo) s.last_memplace turns key
  let s1 := if r.2 > -1 then
      let s2 := store_frequency0 r.1 (arr_get r.1.f_vfo r.1.cur_vfo) (wrap_int (16 + r.1.cur_vfo))
      { s2 with last_memplace := r.2, eeprom := store_last_mem s2.eeprom r.2 }
    else r.1
  set_frequency2 (set_frequency1 s1 (arr_get s1.f_vfo s1.cur_vfo)) (arr_get s1.f_lo s1.sideband)

/-- Key 2 of the main loop: save the VFO frequencies, the band and the VFO. -/
def main_key2 (s : Radio) : Radio :=
  let s1 := store_frequency0 s (arr_get s.f_vfo 0) (wrap_int (s.cur_band + 96))
  let s2 := store_frequency0 s1 (arr_get s1.f_vfo 1) (wrap_int (s1.cur_band + 97))
  let s3 := { s2 with eeprom := store_last_band s2.eeprom s2.cur_band }
  { s3 with eeprom := store_last_vfo s3.eeprom s3.cur_vfo }

/-- One pass of the adjustment loop of `set_lo_freq`. -/
def set_lo_freq_pass (sf : Radio × Nat) (knob : Int) : Radio × Nat :=
  let s0 := { sf.1 with tuningknob := knob }
  let sf1 : Radio × Nat :=
    if s0.tuningknob ≥ 1 then
      (set_frequency2 { s0 with tuningknob := 0 } (add32 sf.2 10), add32 sf.2 10)
    else (s0, sf.2)
  if sf1.1.tuningknob ≤ -1 then
    (set_frequency2 { sf1.1 with tuningknob := 0 } (sub32 sf1.2 10), sub32 sf1.2 10)
  else sf1

/-- C function `set_lo_freq(sb)`. -/
def set_lo_freq (s : Radio) (sb : Int) (turns : List Int) (key : Int) : Radio :=
  let sf := turns.foldl set_lo_freq_pass (s, arr_get s.f_lo sb)
  if key = 2 then
    { sf.1 with f_lo := arr_set sf.1.f_lo sb sf.2,
                eeprom := store_frequency1 sf.1.eeprom sf.2 (wrap_int (128 + sb)) }
  else set_frequency2 sf.1 (arr_get sf.1.f_lo sb)

/-- One pass of the adjustment loop of `set_scan_frequency`; `kc` holds the
values of `tuningknob` and `tuningcount` found in this pass. -/
def set_scan_frequency_pass (sf : Radio × Nat) (kc : Int × Int) : Radio × Nat :=
  let s0 := { sf.1 with tuningknob := kc.1, tuningcount := kc.2 }
  let sf1 : Radio × Nat :=
    if s0.tuningknob ≥ 1 then
      let f1 := add32 sf.2 (u32_of_int (calc_tuningfactor s0.tuningcount))
      ({ set_frequency1 s0 f1 with tuningknob := 0 }, f1)
    else (s0, sf.2)
  if sf1.1.tuningknob ≤ -1 then
    let f1 := sub32 sf1.2 (u32_of_int (calc_tuningfactor sf1.1.tuningcount))
    ({ set_frequency1 sf1.1 f1 with tuningknob := 0 }, f1)
  else sf1

/-- C function `set_scan_frequency(fpos, f0)`; returns the state and the result. -/
def set_scan_frequency (s : Radio) (fpos : Int) (f0 : Nat) (turns : List (Int × Int))
    (key : Int) : Radio × Nat :=
  let sf := turns.foldl set_scan_frequency_pass (s, f0)
  if key = 2 then
    ({ sf.1 with
        eeprom := store_frequency1 sf.1.eeprom sf.2 (wrap_int (sf.1.cur_band * 2 + 550 + fpos * 4)),
        scanfreq := arr_set sf.1.scanfreq fpos sf.2 }, sf.2)
  else (sf.1, 0)

/-- Body of the loop of `scan` (band scan) that loads scan edge `t1`. -/
def scan_load_edge (s : Radio) (t1 : Int) : Radio :=
  let v := load_frequency1 s.eeprom (wrap_int (s.cur_band * 2 + 550 + t1 * 4))
  let w := if is_mem_freq_ok v s.cur_band = 0 then
      (if t1 = 0 then arr_get band_f0 s.cur_band else arr_get band_f1 s.cur_band)
    else v
  { s with scanfreq := arr_set s.scanfreq t1 w }

/-- Loop "Load edge frequencies" of `scan` (band scan). -/
def scan_load_edges (s : Radio) : Radio := scan_load_edge (scan_load_edge s 0) 1

/-! ## Steps of the main loop -/

/-- Band change of the main loop for the menu result `rval` (an
`unsigned long`, so `rval >= 0` always holds). -/
def main_band_change (s : Radio) (rval : Nat) : Radio :=
  if rval < 6 then
    let s1 := { s with cur_band := int_of_u32 rval }
    let s2 := load_vfos s1
    let s3 := set_frequency1 s2 (arr_get s2.f_vfo s2.cur_vfo)
    let s4 := { s3 with sideband := iarr_get std_sideband s3.cur_band }
    let s5 := set_frequency2 s4 (arr_get s4.f_lo s4.sideband)
    let s6 := { s5 with eeprom := store_last_band s5.eeprom s5.cur_band, last_memplace := 0 }
    { s6 with freq_temp0 := load_frequency0 s6 s6.last_memplace }
  else s

/-- Split selection of the main loop: menu results 80, 81 and 82. -/
def main_split_select (s : Radio) (rval : Nat) : Radio :=
  if rval = 80 then { s with split := 1, vfo_s := iarr_set (iarr_set s.vfo_s 0 0) 1 1 }
  else if rval = 81 then { s with split := 2, vfo_s := iarr_set (iarr_set s.vfo_s 0 1) 1 0 }
  else if rval = 82 then { s with split := 0 }
  else s

/-- The `switch(split)` taken when PTT is found active in receive. -/
def ptt_tx_switch (s : Radio) : Radio :=
  if s.split = 1 then
    show_companion (set_frequency1 s (arr_get s.f_vfo (iarr_get s.vfo_s 0)))
      (arr_get s.f_vfo (iarr_get s.vfo_s 1))
  else if s.split = 2 then
    show_companion (set_frequency1 s (arr_get s.f_vfo (iarr_get s.vfo_s 1)))
      (arr_get s.f_vfo (iarr_get s.vfo_s 0))
  else if s.split = 0 then set_frequency1 s (arr_get s.f_vfo s.cur_vfo)
  else s

/-- The `switch(split)` taken when PTT is found released in transmit. -/
def ptt_rx_switch (s : Radio) : Radio :=
  if s.split = 1 then
    show_companion (set_frequency1 s (arr_get s.f_vfo (iarr_get s.vfo_s 1)))
      (arr_get s.f_vfo (iarr_get s.vfo_s 0))
  else if s.split = 2 then
    show_companion (set_frequency1 s (arr_get s.f_vfo (iarr_get s.vfo_s 0)))
      (arr_get s.f_vfo (iarr_get s.vfo_s 1))
  else if s.split = 0 then set_frequency1 s (arr_get s.f_vfo s.cur_vfo)
  else s

/-- Section "Detect PTT" of the main loop; `ptt` is the value of `get_ptt()`. -/
def main_ptt (s : Radio) (ptt : Int) : Radio :=
  if ptt ≠ 0 then
    (if s.txrx = 0 then ptt_tx_switch { s with txrx := 1 } else s)
  else
    (if s.txrx ≠ 0 then ptt_rx_switch { s with txrx := 0 } else s)

/-- C function `get_keys()`, on the value `adcval` returned by `get_adc(0)`;
the loop over `key_value[] = {39, 143, 280}` is unrolled. -/
def get_keys (adcval : Int) : Int :=
  if adcval > 39 - 5 ∧ adcval < 39 + 5 then 1
  else if adcval > 143 - 5 ∧ adcval < 143 + 5 then 2
  else if adcval > 280 - 5 ∧ adcval < 280 + 5 then 3
  else 0

/-- Radio with VFO A on 7000 kHz and VFO B on 7100 kHz, in receive, over an
erased EEPROM. -/
def radio_two_vfos : Radio := { power_on (fun _ => 0) with cur_band := 2, f_vfo := [7000000, 7100000] }

/-! ## Synthesizers: tuning words

The source multiplies an `unsigned long` by the `double` constants
10.73741824 and 2.68435456. On the target (avr-gcc for the ATmega128) the type
`double` is the 32-bit IEEE 754 single format, with 24 significant bits and
rounding to nearest, ties to even. A product is therefore formed in three
roundings: the integer operand is converted to the format, the decimal
constant is the nearest number of the format, and the exact product of these
two is rounded to the format. The conversion of the product to an integer type
discards the fraction, as the C conversion does. All numbers met here are
non-negative and far from the exponent limits of the format, so a number of
the format is kept as a natural number of units `2^-20` or `2^-22`. -/

/-- Quotient `a / b` rounded to the nearest integer, a tie going to the even
neighbour: the rounding of the floating-point format. -/
def round_half_even (a b : Nat) : Nat :=
  if 2 * (a % b) < b then a / b
  else if b < 2 * (a % b) then a / b + 1
  else if a / b % 2 = 0 then a / b else a / b + 1

/-- Search for the number of low bits that a 24-bit significand cannot hold:
the least `d' >= d` with `x < 2^(d' + 24)`, with `k` steps left. -/
def f32_drop_from : Nat → Nat → Nat → Nat
  | 0, d, _ => d
  | k + 1, d, x => if x < 2 ^ (d + 24) then d else f32_drop_from k (d + 1) x

/-- Number of low bits of `x` that do not fit a significand of 24 bits: 0 for
`x < 2^24`, else the bit length of `x` less 24 (for `x < 2^64`, which holds
for every product of a 32-bit integer and a 24-bit significand). -/
def f32_drop (x : Nat) : Nat := f32_drop_from 40 0 x

/-- Rounding of `x` (a count of some fixed power of two) to the 32-bit
floating-point format: `x` rounded to 24 significant bits, to nearest, ties
to even. -/
def f32_round (x : Nat) : Nat := round_half_even x (2 ^ f32_drop x) * 2 ^ f32_drop x

/-- The `double` constant 10.73741824 of `set_frequency1` in units of `2^-20`:
the constant lies between 8 and 16, so its 24-bit significand counts `2^-20`. -/
def F32_10_73741824 : Nat := round_half_even (1073741824 * 1048576) 100000000

/-- The `double` constant 2.68435456 of `set_frequency2` in units of `2^-22`:
the constant lies between 2 and 4, so its 24-bit significand counts `2^-22`. -/
def F32_2_68435456 : Nat := round_half_even (268435456 * 4194304) 100000000

/-- Frequency that `set_frequency1` multiplies by the scale constant:
`f = frequency + 3000`, then `f + INTERFREQUENCY - 5000` when `sideband` is 0
and `f + INTERFREQUENCY` otherwise, in `unsigned long` arithmetic. -/
def dds1_prescale (frequency : Nat) (sideband : Int) : Nat :=
  let f := add32 frequency 3000
  if sideband = 0 then sub32 (add32 f INTERFREQUENCY) 5000 else add32 f INTERFREQUENCY

/-- Tuning word `fword` of `set_frequency1`: the prescale frequency converted
to `double`, multiplied by the constant in `double` (a number of units
`2^-20`), and the product converted to `unsigned long`, which discards the
fraction. A product beyond the range of `unsigned long` (no frequency below
380 MHz gives one) is reduced modulo `2^32`. -/
def dds1_fword (frequency : Nat) (sideband : Int) : Nat :=
  f32_round (f32_round (dds1_prescale frequency sideband) * F32_10_73741824) / 1048576
    % 4294967296

/-- Tuning word `fword1` of `set_frequency2` (`fclk = 100`, so
`fact = 2.68435456`): `f` converted to `double`, multiplied by `fact` in
`double` (a number of units `2^-22`), and the product converted to `long`,
which discards the fraction; it fits the type `long` for every `f` below
800 MHz. -/
def dds2_fword (f : Nat) : Nat := f32_round (f32_round f * F32_2_68435456) / 4194304

/-- Integer nearest to the exact quotient `num / den`, halves rounded up: the
rounding the specification asks of the tuning words. -/
def spec_nearest (num den : Nat) : Nat := (2 * num + den) / (2 * den)

/-! ## Synthesizers: serial transfer

A transfer is the list of the pin writes made by the firmware, in order. -/

/-- Port pins of the two synthesizers. -/
inductive Pin where
  | DDS1_IO_UD
  | DDS1_SDIO
  | DDS1_SCLK
  | DDS2_FSYNC
  | DDS2_SDATA
  | DDS2_SCLK
  deriving DecidableEq

/-- A pin write: the pin and the level it is set to. -/
abbrev PinWrite := Pin × Bool

/-- C function `dds1_send_bit(sbit)`. -/
def dds1_send_bit (sbit : Nat) : List PinWrite :=
  [(Pin.DDS1_SCLK, false), (Pin.DDS1_SDIO, decide (sbit ≠ 0)), (Pin.DDS1_SCLK, true)]

/-- Loop `for(t = 0; t < n; t++) { dds1_send_bit(v & x); x >>= 1; }` of
`set_frequency1`, with `n` passes left and mask `x`. -/
def dds1_send_bits (v : Nat) : Nat → Nat → List PinWrite
  | 0, _ => []
  | n + 1, x => dds1_send_bit (v &&& x) ++ dds1_send_bits v n (x >>> 1)

/-- Loop of `set_frequency1` over the four bytes of the tuning word, with `n`
passes left: `resultbyte = (fword & comparebyte) >> shiftbyte` is sent, then
`comparebyte >>= 8` and `shiftbyte -= 8` (the value of `shiftbyte` after the
last pass is not used). -/
def dds1_send_fword (fword : Nat) : Nat → Nat → Nat → List PinWrite
  | 0, _, _ => []
  | n + 1, comparebyte, shiftbyte =>
    dds1_send_bits ((fword &&& comparebyte) >>> shiftbyte) 8 128
      ++ dds1_send_fword fword n (comparebyte >>> 8) (shiftbyte - 8)

/-- Transfer of `set_frequency1` for the tuning word `fword`: `DDS1_IO_UD` low,
the instruction 0x04, the tuning word, `DDS1_IO_UD` high. -/
def dds1_transfer (fword : Nat) : List PinWrite :=
  [(Pin.DDS1_IO_UD, false)] ++ dds1_send_bits 4 8 128
    ++ dds1_send_fword fword 4 4278190080 24 ++ [(Pin.DDS1_IO_UD, true)]

/-- Pin writes of the call `set_frequency1(frequency)` under `sideband`. -/
def set_frequency1_pins (frequency : Nat) (sideband : Int) : List PinWrite :=
  dds1_transfer (dds1_fword frequency sideband)

/-- C function `dds2_start()`. -/
def dds2_start : List PinWrite := [(Pin.DDS2_SCLK, true), (Pin.DDS2_FSYNC, false)]

/-- C function `dds2_stop()`. -/
def dds2_stop : List PinWrite := [(Pin.DDS2_FSYNC, true)]

/-- C function `dds2_send_bit(sbit)`. -/
def dds2_send_bit (sbit : Nat) : List PinWrite :=
  [(Pin.DDS2_SDATA, decide (sbit ≠ 0)), (Pin.DDS2_SCLK, true), (Pin.DDS2_SCLK, false)]

/-- Loop `for(t1 = 2; t1 < 16; t1++) { if(fword1 & x) l[t1] = 1; x >>= 1; }` of
`set_frequency2`: the entries written to the array, with `n` passes left. -/
def dds2_fill (fword1 : Nat) : Nat → Nat → List Nat
  | 0, _ => []
  | n + 1, x => (if fword1 &&& x ≠ 0 then 1 else 0) :: dds2_fill fword1 n (x >>> 1)

/-- Array `l` of `set_frequency2` after its loop (`x` starts at `1 << 13`). -/
def dds2_l (fword1 : Nat) : List Nat := [0, 1] ++ dds2_fill fword1 14 8192

/-- Array `m` of `set_frequency2` after its loop (`x` starts at `1L << 27`). -/
def dds2_m (fword1 : Nat) : List Nat := [0, 1] ++ dds2_fill fword1 14 134217728

/-- Loop `for(t1 = 15; t1 >= 0; t1--) dds2_send_bit(0x2000 & (1 << t1))`, with
`n` passes left (`t1 = n - 1` in the next pass). -/
def dds2_send_control : Nat → List PinWrite
  | 0 => []
  | n + 1 => dds2_send_bit (8192 &&& (1 <<< n)) ++ dds2_send_control n

/-- Loop `for(t1 = 0; t1 < 16; t1++) dds2_send_bit(l[t1])` over an array. -/
def dds2_send_array : List Nat → List PinWrite
  | [] => []
  | b :: bs => dds2_send_bit b ++ dds2_send_array bs

/-- Transfer of `set_frequency2` for the tuning word `fword1`. -/
def dds2_transfer (fword1 : Nat) : List PinWrite :=
  dds2_start ++ dds2_send_control 16 ++ dds2_stop
    ++ (dds2_start ++ dds2_send_array (dds2_l fword1) ++ dds2_stop)
    ++ (dds2_start ++ dds2_send_array (dds2_m fword1) ++ dds2_stop)

/-- Pin writes of the call `set_frequency2(f)`. -/
def set_frequency2_pins (f : Nat) : List PinWrite := dds2_transfer (dds2_fword f)

/-! ## Vocabulary of the serial protocols -/

/-- The `n` low bits of `v`, most significant first. -/
def msb_bits (v : Nat) : Nat → List Bool
  | 0 => []
  | n + 1 => v.testBit n :: msb_bits v n

/-- Number spelled by a list of bits, most significant first. -/
def bits_value (bs : List Bool) : Nat := bs.foldl (fun acc b => 2 * acc + b.toNat) 0

/-- Pin writes that clock the bits `bs` into synthesizer A: for each bit SCLK
low, the bit on SDIO, SCLK high. -/
def dds1_clock_out : List Bool → List PinWrite
  | [] => []
  | b :: bs => [(Pin.DDS1_SCLK, false), (Pin.DDS1_SDIO, b), (Pin.DDS1_SCLK, true)]
      ++ dds1_clock_out bs

/-- Pin writes that clock the bits `bs` into synthesizer B: for each bit the
bit on SDATA, SCLK high, SCLK low. -/
def dds2_clock_out : List Bool → List PinWrite
  | [] => []
  | b :: bs => [(Pin.DDS2_SDATA, b), (Pin.DDS2_SCLK, true), (Pin.DDS2_SCLK, false)]
      ++ dds2_clock_out bs

/-- One frame of synthesizer B: with SCLK high the frame-sync line FSYNC goes
low, the bits are clocked in, and FSYNC goes high. -/
def dds2_frame (bs : List Bool) : List PinWrite :=
  [(Pin.DDS2_SCLK, true), (Pin.DDS2_FSYNC, false)] ++ dds2_clock_out bs
    ++ [(Pin.DDS2_FSYNC, true)]

/-! ## Interrupt handlers -/

/-- Handler `ISR(INT2_vect)` of the rotary encoder; `pind` is the value read
from the port register `PIND`. -/
def isr_int2 (s : Radio) (pind : Nat) : Radio :=
  { s with tuningknob := wrap_int ((((pind >>> 2) &&& 3 : Nat) : Int) - 2),
           tuningcount := wrap_int (s.tuningcount + 1) }

/-- Handler `ISR(TIMER1_COMPA_vect)`: the part that resets `tuningcount`. -/
def isr_timer1 (s : Radio) : Radio := { s with tuningcount := 0 }

/-! ## Scanner

A run of `scan` is described by what the environment does while the scan
rests on a slot or on a frequency: the values returned by `get_s_value`,
`get_keys` and `get_ptt`, pass by pass of the loops. A squelch pause loop
only ends on a key or on a signal at or below the threshold, so a run in which
its passes run out while it still goes on gives no result (`none`). The
locals of `scan` and the two globals it writes are kept in a record of their
own; of the radio state `scan` reads the EEPROM, `cur_band`, `s_threshold`
and `sideband`. -/

/-- One pass of a squelch pause loop: the key left by polling `get_keys` for
one tick, the value of `get_s_value()` read after it, and the value of
`get_ptt()` (memory scan only). -/
structure PausePass where
  key : Int
  sval : Int
  ptt : Int

/-- One pass of the 20-tick dwell loop of the memory scan: the values of
`get_keys()` and `get_ptt()`. -/
structure DwellPass where
  key : Int
  ptt : Int

/-- What the environment does while the memory scan is at one slot: the first
`get_s_value()`, the passes of the pause loop, the passes of the dwell loop made
before its 20 ticks are over, `get_keys()` of the skip branch, and the value of
`tuningknob` found after the visit. -/
structure SlotEnv where
  sval : Int
  pause : List PausePass
  dwell : List DwellPass
  skip_key : Int
  knob : Int

/-- Record of one visit of the memory scan: the slot, whether synthesizer A
was tuned to it, and the passes made by the pause loop and the dwell loop. -/
structure ScanStep where
  slot : Int
  tuned : Bool
  pause_passes : Nat
  dwell_passes : Nat
  deriving DecidableEq

/-- Locals `key`, `t1`, `scan_skip` of `scan` in memory mode, the global
`tuningknob`, the arguments of its calls of `set_frequency1` and the record of
its visits (both most recent first). -/
structure MemScan where
  key : Int
  t1 : Int
  scan_skip : List Int
  tuningknob : Int
  tuned : List Nat
  steps : List ScanStep

/-- Loop `while(sval > s_threshold && !key)` of the memory scan; returns `key`
and the number of passes made. -/
def scan_mem_pause (thr : Int) : List PausePass → Int → Int → Option (Int × Nat)
  | [], sval, key => if sval > thr ∧ key = 0 then none else some (key, 0)
  | p :: ps, sval, key =>
    if sval > thr ∧ key = 0 then
      (scan_mem_pause thr ps p.sval (if p.ptt ≠ 0 then 2 else p.key)).map
        (fun r => (r.1, r.2 + 1))
    else some (key, 0)

/-- Loop `while(runseconds10 < runsecsold + 20 && !key)` of the memory scan;
the list holds the passes that fit into the 20 ticks. Returns `key` and the
number of passes made. -/
def scan_mem_dwell : List DwellPass → Int → Int × Nat
  | [], key => (key, 0)
  | d :: ds, key =>
    if key = 0 then
      ((scan_mem_dwell ds (if d.ptt ≠ 0 then 2 else d.key)).1,
        (scan_mem_dwell ds (if d.ptt ≠ 0 then 2 else d.key)).2 + 1)
    else (key, 0)

/-- The test `is_mem_freq_ok(f, cur_band) && !scan_skip[t1]` of the memory scan
for the slot `t1`. -/
def scan_mem_slot_ok (s : Radio) (m : MemScan) : Bool :=
  decide (is_mem_freq_ok (load_frequency0 s m.t1) s.cur_band ≠ 0 ∧ iarr_get m.scan_skip m.t1 = 0)

/-- End of a visit of the memory scan with the key `k`: the skip flag is set
when the knob was moved, `tuningknob` is cleared, `t1++`. -/
def scan_mem_next (env : SlotEnv) (m : MemScan) (k : Int) (tuned : List Nat) (st : ScanStep) :
    MemScan :=
  { key := k, t1 := wrap_int (m.t1 + 1),
    scan_skip := if env.knob ≠ 0 then iarr_set m.scan_skip m.t1 1 else m.scan_skip,
    tuningknob := 0, tuned := tuned, steps := st :: m.steps }

/-- Body of the loop `while(t1 < MAXMEM && !key)` of the memory scan: the visit
of slot `t1`. -/
def scan_mem_visit (s : Radio) (env : SlotEnv) (m : MemScan) : Option MemScan :=
  if scan_mem_slot_ok s m = true then
    (scan_mem_pause s.s_threshold env.pause env.sval m.key).map (fun r =>
      scan_mem_next env m (scan_mem_dwell env.dwell r.1).1 (load_frequency0 s m.t1 :: m.tuned)
        { slot := m.t1, tuned := true, pause_passes := r.2,
          dwell_passes := (scan_mem_dwell env.dwell r.1).2 })
  else
    some (scan_mem_next env m env.skip_key m.tuned
      { slot := m.t1, tuned := false, pause_passes := 0, dwell_passes := 0 })

/-- Loop `while(t1 < MAXMEM && !key)` of the memory scan with `n` visits
allowed; `env t1` describes the visit of slot `t1`. -/
def scan_mem_inner (s : Radio) (env : Nat → SlotEnv) : Nat → MemScan → Option MemScan
  | 0, m => if m.t1 < MAXMEM ∧ m.key = 0 then none else some m
  | n + 1, m =>
    if m.t1 < MAXMEM ∧ m.key = 0 then
      (scan_mem_visit s (env m.t1.toNat) m).bind (scan_mem_inner s env n)
    else some m

/-- Locals of `scan` when the memory scan starts. -/
def scan_mem_init : MemScan :=
  { key := 0, t1 := 0, scan_skip := List.replicate 15 0, tuningknob := 0, tuned := [],
    steps := [] }

/-- One pass of the memory scan over the slots, from `t1 = 0`. -/
def scan_mem_pass (s : Radio) (env : Nat → SlotEnv) (m : MemScan) : Option MemScan :=
  scan_mem_inner s env 15 { m with t1 := 0 }

/-- Loop `while(!key)` of the memory scan: one pass per element of the list. -/
def scan_mem_outer (s : Radio) : List (Nat → SlotEnv) → MemScan → Option MemScan
  | [], m => if m.key = 0 then none else some m
  | env :: envs, m =>
    if m.key = 0 then (scan_mem_pass s env m).bind (scan_mem_outer s envs) else some m

/-- Result of a call of `scan`: the radio state after it, the value returned
(an `unsigned long`), the key that ended the scan and, for the memory scan,
the record of the visits in the order made. -/
structure ScanResult where
  radio : Radio
  value : Nat
  key : Int
  steps : List ScanStep

/-- The call `scan(0)`: the memory scan. -/
def scan_mem (s : Radio) (passes : List (Nat → SlotEnv)) : Option ScanResult :=
  (scan_mem_outer s passes scan_mem_init).map (fun m =>
    ScanResult.mk
      { s with tuningknob := m.tuningknob,
               dds1_calls := m.tuned.map (fun f => (f, s.sideband)) ++ s.dds1_calls }
      (if m.key = 2 then u32_of_int (wrap_int (m.t1 - 1)) else u32_of_int (-1))
      m.key m.steps.reverse)

/-- Menu result 70 of the main loop: scan the memories. -/
def main_case70 (s : Radio) (passes : List (Nat → SlotEnv)) : Option Radio :=
  (scan_mem s passes).map (fun r =>
    let t1 := int_of_u32 r.value
    let f := load_frequency0 r.radio t1
    let s1 : Radio :=
      { r.radio with
        freq_temp0 := if t1 > 0 then f else r.radio.freq_temp0,
        f_vfo := if t1 > 0 ∧ is_mem_freq_ok f r.radio.cur_band ≠ 0
          then arr_set r.radio.f_vfo r.radio.cur_vfo f else r.radio.f_vfo }
    set_frequency2 (set_frequency1 s1 (arr_get s1.f_vfo s1.cur_vfo))
      (arr_get s1.f_lo s1.sideband))

/-- One pass of the squelch pause loop of the band scan. -/
structure BandPause where
  key : Int
  sval : Int

/-- What the environment does during one step of the band scan: the first
`get_s_value()` and `get_keys()`, the passes of the pause loop, `get_ptt()`. -/
structure StepEnv where
  sval : Int
  key : Int
  pause : List BandPause
  ptt : Int

/-- Locals `key` and `df` of `scan` in band mode and the arguments of its calls
of `set_frequency1`, most recent first. -/
structure BandScan where
  key : Int
  df : Nat
  tuned : List Nat

/-- Loop `while((sval > s_threshold) && !key)` of the band scan; returns `key`. -/
def scan_band_pause (thr : Int) : List BandPause → Int → Int → Option Int
  | [], sval, key => if sval > thr ∧ key = 0 then none else some key
  | p :: ps, sval, key =>
    if sval > thr ∧ key = 0 then scan_band_pause thr ps p.sval p.key else some key

/-- Loop `while((scanfreq[0] + df <= scanfreq[1]) && !key)` of the band scan
with `n` steps allowed; `env i` describes step number `i`. -/
def scan_band_steps (thr : Int) (lo hi : Nat) (env : Nat → StepEnv) :
    Nat → Nat → BandScan → Option BandScan
  | 0, _, b => if add32 lo b.df ≤ hi ∧ b.key = 0 then none else some b
  | n + 1, i, b =>
    if add32 lo b.df ≤ hi ∧ b.key = 0 then
      (scan_band_pause thr (env i).pause (env i).sval (env i).key).bind (fun k =>
        scan_band_steps thr lo hi env n (i + 1)
          { key := if (env i).ptt ≠ 0 then 2 else k, df := add32 b.df 100,
            tuned := add32 lo (add32 b.df 100) :: b.tuned })
    else some b

/-- One sweep of the band scan between the edges `lo = scanfreq[0]` and
`hi = scanfreq[1]`: `df = 0`, `set_frequency1(scanfreq[0] + df)`, then the
steps. The number of steps allowed, `(hi - lo) / 100 + 1`, is the number the
loop can make before `scanfreq[0] + df` passes `hi`. -/
def scan_band_sweep (thr : Int) (lo hi : Nat) (env : Nat → StepEnv) (b : BandScan) :
    Option BandScan :=
  scan_band_steps thr lo hi env ((hi - lo) / 100 + 1) 0
    { key := b.key, df := 0, tuned := add32 lo 0 :: b.tuned }

/-- Loop `while(!key)` of the band scan: one sweep per element of the list. -/
def scan_band_outer (thr : Int) (lo hi : Nat) : List (Nat → StepEnv) → BandScan → Option BandScan
  | [], b => if b.key = 0 then none else some b
  | env :: envs, b =>
    if b.key = 0 then (scan_band_sweep thr lo hi env b).bind (scan_band_outer thr lo hi envs)
    else some b

/-- The call `scan(1)`: the band scan. The edges are loaded at the start of
every sweep from an EEPROM that the scan does not write, so they are the same
in every sweep. -/
def scan_band (s : Radio) (sweeps : List (Nat → StepEnv)) : Option ScanResult :=
  (scan_band_outer s.s_threshold (arr_get (scan_load_edges s).scanfreq 0)
      (arr_get (scan_load_edges s).scanfreq 1) sweeps { key := 0, df := 0, tuned := [] }).map
    (fun b =>
      ScanResult.mk
        { s with scanfreq := (scan_load_edges s).scanfreq, tuningknob := 0,
                 dds1_calls := b.tuned.map (fun f => (f, s.sideband)) ++ s.dds1_calls }
        (if b.key = 2 then add32 (arr_get (scan_load_edges s).scanfreq 0) b.df
          else u32_of_int (-1))
        b.key [])

/-- Menu result 71 of the main loop: scan the band. -/
def main_case71 (s : Radio) (sweeps : List (Nat → StepEnv)) : Option Radio :=
  (scan_band s sweeps).map (fun r =>
    let s1 : Radio :=
      { r.radio with
        freq_temp0 := r.value,
        f_vfo := if is_mem_freq_ok r.value r.radio.cur_band ≠ 0
          then arr_set r.radio.f_vfo r.radio.cur_vfo r.value else r.radio.f_vfo }
    set_frequency2 (set_frequency1 s1 (arr_get s1.f_vfo s1.cur_vfo))
      (arr_get s1.f_lo s1.sideband))

/-! ## Further steps of the main loop -/

/-- VFO selection of the main loop: menu results 20 and 21. -/
def main_vfo_select (s : Radio) (rval : Nat) : Radio :=
  if rval = 20 ∨ rval = 21 then
    let cur := int_of_u32 (sub32 rval 20)
    let fv := if is_mem_freq_ok (arr_get s.f_vfo cur) s.cur_band = 0
      then arr_set s.f_vfo cur (arr_get c_freq s.cur_band) else s.f_vfo
    let s1 : Radio :=
      { s with freq_temp0 := arr_get s.f_vfo s.cur_vfo, alt_vfo := s.cur_vfo, cur_vfo := cur,
               f_vfo := fv }
    set_frequency2 (set_frequency1 s1 (arr_get s1.f_vfo s1.cur_vfo)) (arr_get s1.f_lo s1.sideband)
  else s

/-- End of the menu branch of the main loop: the call
`show_all_data(f_vfo[cur_vfo], f_vfo[alt_vfo], ...)`. -/
def main_menu_end (s : Radio) : Radio := show_all_data s (arr_get s.f_vfo s.alt_vfo)

/-- Body of the loop of menu result 72 that loads scan edge `t1` for editing. -/
def case72_load (s : Radio) (t1 : Int) : Radio :=
  let v := load_frequency1 s.eeprom (wrap_int (s.cur_band * 2 + 550 + t1 * 4))
  let w := if is_mem_freq_ok v s.cur_band = 0 then
      (if t1 = 0 then add32 (arr_get band_f0 s.cur_band) 100
        else sub32 (arr_get band_f1 s.cur_band) 100)
    else v
  { s with scanfreq := arr_set s.scanfreq t1 w }

/-- Body of the loop "Store in EEPROM" of menu result 72: the call
`store_frequency1(cur_band * 2 + 550 + t1 * 4, scanfreq[t1])`, whose first
parameter is the frequency and whose second is the start address. -/
def case72_store (s : Radio) (t1 : Int) : Radio :=
  let f := u32_of_int (wrap_int (s.cur_band * 2 + 550 + t1 * 4))
  let start_adr := int_of_u32 (arr_get s.scanfreq t1)
  { s with eeprom := store_frequency1 s.eeprom f start_adr }

/-- Menu result 72 of the main loop: set the scan limits. The two runs of
`set_scan_frequency` are described by their knob turns and ending keys. -/
def main_case72 (s : Radio) (turns0 : List (Int × Int)) (key0 : Int)
    (turns1 : List (Int × Int)) (key1 : Int) : Radio :=
  let s1 := case72_load (case72_load s 0) 1
  let r0 := set_scan_frequency s1 0 (arr_get s1.scanfreq 0) turns0 key0
  let s2 : Radio := { r0.1 with scanfreq := arr_set r0.1.scanfreq 0 r0.2 }
  let r1 := set_scan_frequency s2 1 (arr_get s2.scanfreq 1) turns1 key1
  let s3 : Radio := { r1.1 with scanfreq := arr_set r1.1.scanfreq 1 r1.2 }
  let swap := decide (arr_get s3.scanfreq 1 < arr_get s3.scanfreq 0)
  let s4 : Radio :=
    { s3 with
      freq_temp0 := if swap then arr_get s3.scanfreq 1 else s3.freq_temp0,
      scanfreq := if swap then
          arr_set (arr_set s3.scanfreq 1 (arr_get s3.scanfreq 0)) 0 (arr_get s3.scanfreq 1)
        else s3.scanfreq }
  case72_store (case72_store s4 0) 1

/-! ## Scenario states used at concrete inputs -/

/-- Radio state in band 2 (40 m) over an erased EEPROM. -/
def radio_band2 : Radio := { power_on (fun _ => 0) with cur_band := 2 }

/-- Radio state in band 1 (80 m) with both VFOs set, over an erased EEPROM. -/
def radio_band1_vfos : Radio :=
  { power_on (fun _ => 0) with cur_band := 1, f_vfo := [3650000, 3700000] }

/-- Radio state in band 0 (160 m), VFO A on 1900 kHz, slot 3 selected, over an
erased EEPROM. -/
def radio_band0_slot3 : Radio :=
  { power_on (fun _ => 0) with cur_band := 0, f_vfo := [1900000, 1950000], last_memplace := 3 }

/-- Radio after `set_lo_freq(0)` on an erased EEPROM: one step clockwise, then
key 2. -/
def radio_lo_lsb : Radio := set_lo_freq (power_on (fun _ => 0)) 0 [1] 2

/-- Radio after a following `set_lo_freq(1)` confirmed with key 2. -/
def radio_lo_usb : Radio := set_lo_freq radio_lo_lsb 1 [] 2

/-- EEPROM after scan edge 0 of band 2 was set to 7050 kHz with
`set_scan_frequency(0, ...)` and key 2. -/
def eeprom_edge_band2 : Eeprom :=
  (set_scan_frequency { power_on (fun _ => 0) with cur_band := 2 } 0 7050000 [] 2).1.eeprom

/-- Radio after scan edge 1 of band 0 was then set to 1900 kHz with
`set_scan_frequency(1, ...)` and key 2. -/
def radio_edge_band0 : Radio :=
  (set_scan_frequency { power_on eeprom_edge_band2 with cur_band := 0 } 1 1900000 [] 2).1

/-- Radio in band 2 whose memory slot 0 holds 7050 kHz and slot 1 holds
7060 kHz, VFO A on 7000 kHz, VFO B on 7100 kHz. -/
def radio_mem_slots01 : Radio :=
  { power_on (store_frequency1 (store_frequency1 (fun _ => 0) 7050000 128) 7060000 132) with
    cur_band := 2, f_vfo := [7000000, 7100000] }

/-- Visit of a slot without signal during which nothing is pressed: one dwell
pass, then the 20 ticks are over. -/
def slot_quiet : SlotEnv := { sval := 0, pause := [], dwell := [⟨0, 0⟩], skip_key := 0, knob := 0 }

/-- Visit of a slot without signal during which key `k` is found in the first
pass of the dwell loop (or, for an empty slot, in the skip branch). -/
def slot_key (k : Int) : SlotEnv :=
  { sval := 0, pause := [], dwell := [⟨k, 0⟩], skip_key := k, knob := 0 }

/-- Pass of the memory scan in which key `k` is pressed while the scan is at
slot `i` and nothing is pressed before. -/
def pass_key_at (i : Nat) (k : Int) : Nat → SlotEnv :=
  fun t => if t = i then slot_key k else slot_quiet

/-- Radio in band 2 whose memory slot 15 alone holds a frequency, 7050 kHz. -/
def radio_mem_slot15 : Radio :=
  { power_on (store_frequency1 (fun _ => 0) 7050000 188) with cur_band := 2 }

/-- Radio in band 2 with the scan edges 7000000 and 7000100 stored where the
band scan loads them (byte offsets 554 and 558). -/
def radio_edges_close : Radio :=
  { power_on (store_frequency1 (store_frequency1 (fun _ => 0) 7000000 554) 7000100 558) with
    cur_band := 2, f_vfo := [7050000, 7100000] }

/-- Step of the band scan without signal in which `get_keys()` returns `k`. -/
def step_key (k : Int) : StepEnv := { sval := 0, key := k, pause := [], ptt := 0 }

/-- Sweep of the band scan in which key `k` is pressed in step `i` and nothing
is pressed before. -/
def sweep_key_at (i : Nat) (k : Int) : Nat → StepEnv :=
  fun t => if t = i then step_key k else step_key 0

/-- Radio at the entry of the main loop after a start from the EEPROM left by
a frequency save with VFO A on 7000 kHz and VFO B on 7100 kHz in band 2. -/
def radio_started : Radio := startup (power_on (main_key2 radio_two_vfos).eeprom)

/-- Radio in band 2 whose stored scan edges are 7100 kHz (edge 0) and
7050 kHz (edge 1). -/
def radio_edges_desc : Radio :=
  { power_on (store_frequency1 (store_frequency1 (fun _ => 0) 7100000 554) 7050000 558) with
    cur_band := 2 }

/-- Radio after the set-scan-limits action on `radio_edges_desc` in which both
frequencies are confirmed with key 2 as they are shown. -/
def radio_limits_set : Radio := main_case72 radio_edges_desc [] 2 [] 2

/-! ## Memory slots: round trip, validity, layout -/

theorem eeprom_read_write_same (e : Eeprom) (a v : Nat) :
    eeprom_read_byte (eeprom_write_byte e a v) a = v % 256 := by
  simp [eeprom_read_byte, eeprom_write_byte]

theorem eeprom_read_write_other (e : Eeprom) (a b v : Nat) (h : b ≠ a) :
    eeprom_read_byte (eeprom_write_byte e a v) b = eeprom_read_byte e b := by
  simp [eeprom_read_byte, eeprom_write_byte, h]

/-- The four bytes written by `store_frequency1`, and the frame around them. -/
theorem store_frequency1_bytes (e : Eeprom) (f : Nat) (a : Int) (hf : f < 4294967296) :
    store_frequency1 e f a (ptr_of_int a) = f / 16777216 ∧
    store_frequency1 e f a (ptr_add (ptr_of_int a) 1) = f / 65536 % 256 ∧
    store_frequency1 e f a (ptr_add (ptr_of_int a) 2) = f / 256 % 256 ∧
    store_frequency1 e f a (ptr_add (ptr_of_int a) 3) = f % 256 ∧
    ∀ x, x ≠ ptr_of_int a → x ≠ ptr_add (ptr_of_int a) 1 → x ≠ ptr_add (ptr_of_int a) 2 →
      x ≠ ptr_add (ptr_of_int a) 3 → store_frequency1 e f a x = e x := by
  generalize hp : ptr_of_int a = p
  have hlt : p < 65536 := by rw [← hp]; simp only [ptr_of_int]; omega
  have h1 : p ≠ ptr_add p 1 := by simp only [ptr_add]; omega
  have h2 : p ≠ ptr_add p 2 := by simp only [ptr_add]; omega
  have h3 : p ≠ ptr_add p 3 := by simp only [ptr_add]; omega
  have h12 : ptr_add p 1 ≠ ptr_add p 2 := by simp only [ptr_add]; omega
  have h13 : ptr_add p 1 ≠ ptr_add p 3 := by simp only [ptr_add]; omega
  have h23 : ptr_add p 2 ≠ ptr_add p 3 := by simp only [ptr_add]; omega
  refine ⟨?_, ?_, ?_, ?_, ?_⟩
  · simp only [store_frequency1, eeprom_write_byte, hp]
    rw [if_neg h3, if_neg h2, if_neg h1, if_true]
    omega
  · simp only [store_frequency1, eeprom_write_byte, hp]
    rw [if_neg h13, if_neg h12, if_true]
    simp only [sub32, u32_of_int, wrap_int]
    omega
  · simp only [store_frequency1, eeprom_write_byte, hp]
    rw [if_neg h23, if_true]
    simp only [sub32]
    omega
  · simp only [store_frequency1, eeprom_write_byte, hp]
    rw [if_true]
    simp only [sub32, u32_of_int, wrap_int]
    omega
  · intro x hx0 hx1 hx2 hx3
    simp only [store_frequency1, eeprom_write_byte, hp]
    rw [if_neg hx3, if_neg hx2, if_neg hx1, if_neg hx0]

/-- Reading back with `load_frequency1` what `store_frequency1` wrote. -/
theorem load_store_frequency1 (e : Eeprom) (f : Nat) (a : Int) (hf : f < 4294967296) :
    load_frequency1 (store_frequency1 e f a) a = f := by
  obtain ⟨h0, h1, h2, h3, _⟩ := store_frequency1_bytes e f a hf
  simp only [load_frequency1, eeprom_read_byte, h0, h1, h2, h3, add32]
  omega

/-- C1: for every 32-bit frequency `f` (0 included) and every byte address `a`,
`load_frequency1(a)` after `store_frequency1(f, a)` returns `f`; and for every
memory slot `m` in 0..15, with `cur_band` left as it is by the store,
`load_frequency0(m)` after `store_frequency0(f, m)` returns `f`. -/
theorem C1_frequency_roundtrip (s : Radio) (f : Nat) (hf : f < 4294967296) :
    (∀ a : Int, load_frequency1 (store_frequency1 s.eeprom f a) a = f) ∧
    (∀ m : Int, 0 ≤ m → m ≤ 15 →
      (store_frequency0 s f m).cur_band = s.cur_band ∧
      load_frequency0 (store_frequency0 s f m) m = f) := by
  refine ⟨fun a => load_store_frequency1 s.eeprom f a hf, ?_⟩
  intro m _ _
  refine ⟨rfl, ?_⟩
  simp only [load_frequency0, store_frequency0]
  exact load_store_frequency1 s.eeprom f _ hf

/-- C2: for every band `b` in 0..5 the tables hold an entry `lo = band_f0[b]` and
`hi = band_f1[b]`, and for every 32-bit `f`, `is_mem_freq_ok(f, b)` returns 1
exactly when `lo <= f <= hi` and returns 0 exactly when `f` is outside. -/
theorem C2_is_mem_freq_ok_iff (b f : Nat) (hb : b < 6) :
    ∃ lo hi, band_f0[b]? = some lo ∧ band_f1[b]? = some hi ∧
      (is_mem_freq_ok f (b : Int) = 1 ↔ lo ≤ f ∧ f ≤ hi) ∧
      (is_mem_freq_ok f (b : Int) = 0 ↔ f < lo ∨ hi < f) := by
  interval_cases b <;>
    simp [is_mem_freq_ok, arr_get, band_f0, band_f1] <;> omega

/-- C3: with `cur_band = b` in 0..5 and slot `m` in 0..15, `store_frequency0(f, m)`
writes the four bytes of `f`, most significant first, to the offsets
`64*b + 4*m`, `+1`, `+2`, `+3`, which lie inside 0..383, and leaves every other
EEPROM byte as it was. -/
theorem C3_store_frequency0_layout (s : Radio) (b m f : Nat) (hb : b < 6) (hm : m < 16)
    (hf : f < 4294967296) (hcb : s.cur_band = (b : Int)) :
    (store_frequency0 s f m).eeprom (64 * b + 4 * m) = f / 16777216 ∧
    (store_frequency0 s f m).eeprom (64 * b + 4 * m + 1) = f / 65536 % 256 ∧
    (store_frequency0 s f m).eeprom (64 * b + 4 * m + 2) = f / 256 % 256 ∧
    (store_frequency0 s f m).eeprom (64 * b + 4 * m + 3) = f % 256 ∧
    64 * b + 4 * m + 3 ≤ 383 ∧
    ∀ x, (x < 64 * b + 4 * m ∨ 64 * b + 4 * m + 3 < x) →
      (store_frequency0 s f m).eeprom x = s.eeprom x := by
  have hp : ptr_of_int (wrap_int (s.cur_band * 64 + (m : Int) * 4)) = 64 * b + 4 * m := by
    rw [hcb]; simp only [ptr_of_int, wrap_int]; omega
  obtain ⟨h0, h1, h2, h3, hfr⟩ :=
    store_frequency1_bytes s.eeprom f (wrap_int (s.cur_band * 64 + (m : Int) * 4)) hf
  rw [hp] at h0 h1 h2 h3 hfr
  have a1 : ptr_add (64 * b + 4 * m) 1 = 64 * b + 4 * m + 1 := by
    simp only [ptr_add]; omega
  have a2 : ptr_add (64 * b + 4 * m) 2 = 64 * b + 4 * m + 2 := by
    simp only [ptr_add]; omega
  have a3 : ptr_add (64 * b + 4 * m) 3 = 64 * b + 4 * m + 3 := by
    simp only [ptr_add]; omega
  rw [a1] at h1 hfr
  rw [a2] at h2 hfr
  rw [a3] at h3 hfr
  refine ⟨h0, h1, h2, h3, by omega, ?_⟩
  intro x hx
  exact hfr x (by omega) (by omega) (by omega) (by omega)

/-- C9: for every band `b` in 0..5 and every preset `v` with `0 <= v <= 4095`,
`store_tx_preset(v, b)` writes the high nibble of `v` to offset `484 + 2*b` and
the low byte to offset `485 + 2*b`, and `load_tx_preset(b)` then returns `v`. -/
theorem C9_tx_preset_roundtrip (e : Eeprom) (b : Nat) (v : Int) (hb : b < 6)
    (hv0 : 0 ≤ v) (hv : v ≤ 4095) :
    ((store_tx_preset e v b) (484 + 2 * b) : Int) = v / 256 ∧
    ((store_tx_preset e v b) (485 + 2 * b) : Int) = v % 256 ∧
    load_tx_preset (store_tx_preset e v b) b = v := by
  have hp0 : ptr_of_int (wrap_int (484 + (b : Int) * 2)) = 484 + 2 * b := by
    simp only [ptr_of_int, wrap_int]; omega
  have hp1 : ptr_of_int (wrap_int (wrap_int (484 + (b : Int) * 2) + 1)) = 485 + 2 * b := by
    simp only [ptr_of_int, wrap_int]; omega
  have hne : 484 + 2 * b ≠ 485 + 2 * b := by omega
  have e0 : (store_tx_preset e v b) (484 + 2 * b) = u8_of_int (v / 256 % 16) % 256 := by
    simp only [store_tx_preset, eeprom_write_byte, hp0, hp1]
    rw [if_neg hne, if_true]
  have e1 : (store_tx_preset e v b) (485 + 2 * b) = u8_of_int (v % 256) % 256 := by
    simp only [store_tx_preset, eeprom_write_byte, hp0, hp1]
    rw [if_true]
  refine ⟨?_, ?_, ?_⟩
  · rw [e0]; simp only [u8_of_int]; omega
  · rw [e1]; simp only [u8_of_int]; omega
  · simp only [load_tx_preset, eeprom_read_byte, hp0, hp1, e0, e1]
    simp only [u8_of_int, wrap_int]
    omega

theorem C1_frequency_roundtrip_witness :
    (∀ a : Int,
      load_frequency1 (store_frequency1 (power_on (fun _ => 0)).eeprom 7100000 a) a = 7100000) ∧
    (∀ m : Int, 0 ≤ m → m ≤ 15 →
      (store_frequency0 (power_on (fun _ => 0)) 7100000 m).cur_band
        = (power_on (fun _ => 0)).cur_band ∧
      load_frequency0 (store_frequency0 (power_on (fun _ => 0)) 7100000 m) m = 7100000) :=
  C1_frequency_roundtrip (power_on (fun _ => 0)) 7100000 (by decide)

theorem C2_is_mem_freq_ok_iff_witness :
    ∃ lo hi, band_f0[2]? = some lo ∧ band_f1[2]? = some hi ∧
      (is_mem_freq_ok 7200000 ((2 : Nat) : Int) = 1 ↔ lo ≤ 7200000 ∧ 7200000 ≤ hi) ∧
      (is_mem_freq_ok 7200000 ((2 : Nat) : Int) = 0 ↔ 7200000 < lo ∨ hi < 7200000) :=
  C2_is_mem_freq_ok_iff 2 7200000 (by decide)

theorem C3_store_frequency0_layout_witness :
    (store_frequency0 radio_band2 7100000 5).eeprom (64 * 2 + 4 * 5) = 7100000 / 16777216 ∧
    (store_frequency0 radio_band2 7100000 5).eeprom (64 * 2 + 4 * 5 + 1) = 7100000 / 65536 % 256 ∧
    (store_frequency0 radio_band2 7100000 5).eeprom (64 * 2 + 4 * 5 + 2) = 7100000 / 256 % 256 ∧
    (store_frequency0 radio_band2 7100000 5).eeprom (64 * 2 + 4 * 5 + 3) = 7100000 % 256 ∧
    64 * 2 + 4 * 5 + 3 ≤ 383 ∧
    ∀ x, (x < 64 * 2 + 4 * 5 ∨ 64 * 2 + 4 * 5 + 3 < x) →
      (store_frequency0 radio_band2 7100000 5).eeprom x = radio_band2.eeprom x :=
  C3_store_frequency0_layout radio_band2 2 5 7100000 (by decide) (by decide) (by decide) rfl

theorem C9_tx_preset_roundtrip_witness :
    ((store_tx_preset (fun _ => 0) 2748 ((3 : Nat) : Int)) (484 + 2 * 3) : Int) = 2748 / 256 ∧
    ((store_tx_preset (fun _ => 0) 2748 ((3 : Nat) : Int)) (485 + 2 * 3) : Int) = 2748 % 256 ∧
    load_tx_preset (store_tx_preset (fun _ => 0) 2748 ((3 : Nat) : Int)) ((3 : Nat) : Int) = 2748 :=
  C9_tx_preset_roundtrip (fun _ => 0) 3 2748 (by decide) (by decide) (by decide)

/-! ## Records outside the memory table -/

/-- C4: in band 1 the frequency save of the main loop (key 2) puts VFO A and
VFO B at byte offsets 452 and 456 and leaves the records at 392 and 396 (offset
`384 + 8*b + 4*v`) untouched; the reload reads them back from 452 and 456. -/
theorem C4_key2_save_band1 :
    load_frequency1 (main_key2 radio_band1_vfos).eeprom 392 = 0 ∧
    load_frequency1 (main_key2 radio_band1_vfos).eeprom 396 = 0 ∧
    load_frequency1 (main_key2 radio_band1_vfos).eeprom 452 = 3650000 ∧
    load_frequency1 (main_key2 radio_band1_vfos).eeprom 456 = 3700000 ∧
    (load_vfos { main_key2 radio_band1_vfos with f_vfo := [0, 0] }).f_vfo = [3650000, 3700000] := by
  decide

/-- C5: storing 1900 kHz to slot 3 of band 0 (menu result 60, confirmed with
key 2 without turning the knob) writes slot (0, 3), and also changes slot 0 and
slot 15 of band 1 (byte offsets 64 and 124), which were empty before. -/
theorem C5_store_changes_other_slots :
    load_frequency1 (main_case60 radio_band0_slot3 [] 2).eeprom 12 = 1900000 ∧
    load_frequency1 radio_band0_slot3.eeprom 64 = 0 ∧
    load_frequency1 (main_case60 radio_band0_slot3 [] 2).eeprom 64 = 1900000 ∧
    load_frequency1 radio_band0_slot3.eeprom 124 = 0 ∧
    load_frequency1 (main_case60 radio_band0_slot3 [] 2).eeprom 124 = 3 := by
  decide

/-- C6: `store_last_mem` writes byte 127 and never changes what `load_last_mem`
reads from byte 442; after `store_last_mem(5)` on an erased EEPROM byte 127
holds 5 and `load_last_mem()` returns 0. -/
theorem C6_store_last_mem_not_read_back :
    (∀ (e : Eeprom) (m : Int), load_last_mem (store_last_mem e m) = load_last_mem e) ∧
    (store_last_mem (fun _ => 0) 5) 127 = 5 ∧
    load_last_mem (store_last_mem (fun _ => 0) 5) = 0 := by
  refine ⟨?_, by decide, by decide⟩
  intro e m
  simp [load_last_mem, store_last_mem, eeprom_read_byte, eeprom_write_byte]

/-- C7: confirming the LSB LO frequency 8998140 in `set_lo_freq(0)` writes it to
byte offset 128 (nothing is written at 512) and the startup load reads it from
there; confirming the USB LO frequency afterwards writes it to offset 129,
which overwrites three bytes of the LSB record, so that the next startup no
longer finds 8998140 and falls back to `F_LO_LSB`. -/
theorem C7_lo_records_overlap :
    arr_get radio_lo_lsb.f_lo 0 = 8998140 ∧
    load_frequency1 radio_lo_lsb.eeprom 512 = 0 ∧
    load_frequency1 radio_lo_lsb.eeprom 128 = 8998140 ∧
    (startup (power_on radio_lo_lsb.eeprom)).f_lo = [8998140, 9001420] ∧
    load_frequency1 radio_lo_usb.eeprom 516 = 0 ∧
    load_frequency1 radio_lo_usb.eeprom 129 = 9001420 ∧
    load_frequency1 radio_lo_usb.eeprom 128 = 35161 ∧
    (startup (power_on radio_lo_usb.eeprom)).f_lo = [8998130, 9001420] := by
  decide

/-- C8: the scan-edge records of different bands overlap. Edge 0 of band 2 is
stored at byte offset 554 and a band scan in band 2 loads it as 7050 kHz;
storing edge 1 of band 0 writes the same four bytes, after which the band
scan in band 2 loads 7000 kHz (the band edge) as its edge 0. -/
theorem C8_scan_edges_overlap :
    load_frequency1 eeprom_edge_band2 554 = 7050000 ∧
    (scan_load_edges { power_on eeprom_edge_band2 with cur_band := 2 }).scanfreq
      = [7050000, 7200000] ∧
    load_frequency1 radio_edge_band0.eeprom 554 = 1900000 ∧
    (scan_load_edges { radio_edge_band0 with cur_band := 0 }).scanfreq = [1810000, 1900000] ∧
    (scan_load_edges { radio_edge_band0 with cur_band := 2 }).scanfreq
      = [7000000, 7200000] := by
  decide

/-! ## Startup over a corrupted EEPROM -/

/-- C10: with every EEPROM byte equal to 0xFF the startup load sequence yields
band 2, VFO 0, memory slot 0, tone 1, AGC 2, attenuator 0 and the LO
frequencies `F_LO_LSB`, `F_LO_USB`, and the scan threshold 255 (the stored
byte), not 100; for every EEPROM content the threshold after startup is the
byte stored at offset 129. -/
theorem C10_startup_all_ff :
    (startup (power_on (fun _ => 255))).cur_band = 2 ∧
    (startup (power_on (fun _ => 255))).cur_vfo = 0 ∧
    (startup (power_on (fun _ => 255))).last_memplace = 0 ∧
    (startup (power_on (fun _ => 255))).curtone = 1 ∧
    (startup (power_on (fun _ => 255))).curagc = 2 ∧
    (startup (power_on (fun _ => 255))).curatt = 0 ∧
    (startup (power_on (fun _ => 255))).f_lo = [F_LO_LSB, F_LO_USB] ∧
    (startup (power_on (fun _ => 255))).s_threshold = 255 ∧
    (∀ e : Eeprom, (startup (power_on e)).s_threshold = ((e 129 % 256 : Nat) : Int)) := by
  refine ⟨by decide, by decide, by decide, by decide, by decide, by decide, by decide,
    by decide, ?_⟩
  intro e
  show (if ((e 129 % 256 : Nat) : Int) < 0 ∨ ((e 129 % 256 : Nat) : Int) > 255 then (100 : Int)
    else ((e 129 % 256 : Nat) : Int)) = ((e 129 % 256 : Nat) : Int)
  rw [if_neg (by omega)]

/-! ## Band selection -/

/-- C11: for every content of EEPROM byte 440 the band index after the startup
load lies in 0..7, the range tested by `load_last_band`; with byte 440 equal to
6 it is 6, an index for which the band tables `std_sideband`, `c_freq`,
`band_f0` and `band_f1` have no entry. -/
theorem C11_startup_band_range :
    (∀ e : Eeprom, 0 ≤ (startup (power_on e)).cur_band ∧ (startup (power_on e)).cur_band ≤ 7) ∧
    (startup (power_on (fun a => if a = 440 then 6 else 0))).cur_band = 6 ∧
    std_sideband[6]? = none ∧ c_freq[6]? = none ∧ band_f0[6]? = none ∧ band_f1[6]? = none := by
  refine ⟨?_, by decide, by decide, by decide, by decide, by decide⟩
  intro e
  show 0 ≤ (startup_band (power_on e)).cur_band ∧ (startup_band (power_on e)).cur_band ≤ 7
  simp only [startup_band, load_last_band, power_on, eeprom_read_byte]
  split_ifs <;> omega

/-- Address read by `load_vfo` for VFO `t` in band `b`. -/
theorem load_vfo_address (b t : Nat) (hb : b < 6) (ht : t < 2) :
    wrap_int (int_of_u32 b * 64 + wrap_int (int_of_u32 b + 96 + (t : Int)) * 4)
      = ((384 + 68 * b + 4 * t : Nat) : Int) := by
  simp only [int_of_u32, wrap_int]
  omega

/-- The centre frequency of a band passes the band check. -/
theorem c_freq_ok (b : Nat) (hb : b < 6) : is_mem_freq_ok (arr_get c_freq b) b = 1 := by
  interval_cases b <;> decide

/-- Value chosen by `load_vfo`: the stored one when it lies in the band, else
the centre frequency; it always lies in the band. -/
theorem load_vfo_choice_ok (b v : Nat) (hb : b < 6) :
    is_mem_freq_ok (if is_mem_freq_ok v b ≠ 0 then v else arr_get c_freq b) b = 1 := by
  by_cases h : is_mem_freq_ok v b ≠ 0
  · rw [if_pos h]
    simp only [is_mem_freq_ok] at h ⊢
    split_ifs at h ⊢ <;> simp_all
  · rw [if_neg h]
    exact c_freq_ok b hb

/-- What `load_vfo` leaves in `f_vfo`. -/
theorem load_vfo_f_vfo (s : Radio) (t1 : Int) :
    (load_vfo s t1).f_vfo = arr_set s.f_vfo t1
      (if is_mem_freq_ok (load_frequency1 s.eeprom
            (wrap_int (s.cur_band * 64 + wrap_int (s.cur_band + 96 + t1) * 4))) s.cur_band ≠ 0
        then load_frequency1 s.eeprom
            (wrap_int (s.cur_band * 64 + wrap_int (s.cur_band + 96 + t1) * 4))
        else arr_get c_freq s.cur_band) := rfl

theorem load_vfo_eeprom (s : Radio) (t1 : Int) : (load_vfo s t1).eeprom = s.eeprom := rfl

theorem load_vfo_cur_band (s : Radio) (t1 : Int) : (load_vfo s t1).cur_band = s.cur_band := rfl

theorem main_band_change_f_vfo (s : Radio) (b : Nat) (hb : b < 6) :
    (main_band_change s b).f_vfo
      = (load_vfo (load_vfo { s with cur_band := int_of_u32 b } 0) 1).f_vfo := by
  unfold main_band_change
  rw [if_pos hb]
  rfl

/-- The value read by `load_frequency1` depends on its four bytes only. -/
theorem load_frequency1_congr (e1 e2 : Eeprom) (a : Int)
    (h : ∀ k, k < 4 → e1 (ptr_add (ptr_of_int a) k) = e2 (ptr_add (ptr_of_int a) k))
    (hp : ptr_of_int a < 65536) :
    load_frequency1 e1 a = load_frequency1 e2 a := by
  have h0 := h 0 (by decide)
  have e0 : ptr_add (ptr_of_int a) 0 = ptr_of_int a := by simp only [ptr_add]; omega
  rw [e0] at h0
  simp only [load_frequency1, eeprom_read_byte, h 1 (by decide), h 2 (by decide),
    h 3 (by decide), h0]

theorem main_key2_eeprom (s : Radio) :
    (main_key2 s).eeprom = eeprom_write_byte (eeprom_write_byte
      (store_frequency1 (store_frequency1 s.eeprom (arr_get s.f_vfo 0)
          (wrap_int (s.cur_band * 64 + wrap_int (s.cur_band + 96) * 4)))
        (arr_get s.f_vfo 1) (wrap_int (s.cur_band * 64 + wrap_int (s.cur_band + 97) * 4)))
      440 (u8_of_int s.cur_band)) 441 (u8_of_int s.cur_vfo) := by
  simp only [main_key2, store_frequency0, store_last_band, store_last_vfo]

/-- The frequency save (key 2) in band `b` leaves both VFO frequencies in the
records at `384 + 68*b` and `388 + 68*b`. -/
theorem main_key2_persists (s : Radio) (b x0 x1 : Nat) (hb : b < 6)
    (hcb : s.cur_band = (b : Int)) (hf : s.f_vfo = [x0, x1])
    (h0 : x0 < 4294967296) (h1 : x1 < 4294967296) :
    load_frequency1 (main_key2 s).eeprom ((384 + 68 * b + 4 * 0 : Nat) : Int) = x0 ∧
    load_frequency1 (main_key2 s).eeprom ((384 + 68 * b + 4 * 1 : Nat) : Int) = x1 := by
  have ha0 : wrap_int (s.cur_band * 64 + wrap_int (s.cur_band + 96) * 4)
      = ((384 + 68 * b + 4 * 0 : Nat) : Int) := by
    rw [hcb]; simp only [wrap_int]; omega
  have ha1 : wrap_int (s.cur_band * 64 + wrap_int (s.cur_band + 97) * 4)
      = ((384 + 68 * b + 4 * 1 : Nat) : Int) := by
    rw [hcb]; simp only [wrap_int]; omega
  have hv0 : arr_get s.f_vfo 0 = x0 := by rw [hf]; rfl
  have hv1 : arr_get s.f_vfo 1 = x1 := by rw [hf]; rfl
  rw [main_key2_eeprom, ha0, ha1, hv0, hv1]
  generalize hA0 : ((384 + 68 * b + 4 * 0 : Nat) : Int) = A0
  generalize hA1 : ((384 + 68 * b + 4 * 1 : Nat) : Int) = A1
  have hp0 : ptr_of_int A0 = 384 + 68 * b := by rw [← hA0]; simp only [ptr_of_int]; omega
  have hp1 : ptr_of_int A1 = 388 + 68 * b := by rw [← hA1]; simp only [ptr_of_int]; omega
  obtain ⟨_, _, _, _, fr1⟩ := store_frequency1_bytes (store_frequency1 s.eeprom x0 A0) x1 A1 h1
  constructor
  · refine Eq.trans (load_frequency1_congr _ (store_frequency1 s.eeprom x0 A0) _ ?_
      (by rw [hp0]; omega)) (load_store_frequency1 s.eeprom x0 A0 h0)
    intro k hk
    rw [hp0]
    have hx : ptr_add (384 + 68 * b) k = 384 + 68 * b + k := by simp only [ptr_add]; omega
    rw [hx]
    simp only [eeprom_write_byte]
    rw [if_neg (by omega), if_neg (by omega)]
    apply fr1
    all_goals first
      | (rw [hp1]; simp only [ptr_add]; omega)
      | (rw [hp1]; omega)
  · refine Eq.trans (load_frequency1_congr _
      (store_frequency1 (store_frequency1 s.eeprom x0 A0) x1 A1) _ ?_
      (by rw [hp1]; omega)) (load_store_frequency1 _ x1 A1 h1)
    intro k hk
    rw [hp1]
    have hx : ptr_add (388 + 68 * b) k = 388 + 68 * b + k := by simp only [ptr_add]; omega
    rw [hx]
    simp only [eeprom_write_byte]
    rw [if_neg (by omega), if_neg (by omega)]

/-- C12: for every band `b` in 0..5 returned by the band menu, after the band
change `cur_band = b`, `last_memplace = 0`, and each VFO `t` in {0, 1} holds the
persisted VFO value of band `b` when `is_mem_freq_ok` accepts it for `b`, and
`c_freq[b]` otherwise; in both cases `is_mem_freq_ok(f_vfo[t], b)` holds. The
persisted value is the record at byte offset `384 + 68*b + 4*t`, which is where
the frequency save (key 2) in band `b` leaves `f_vfo[t]`. -/
theorem C12_band_change (s : Radio) (b a0 a1 : Nat) (hb : b < 6) (hf : s.f_vfo = [a0, a1]) :
    (main_band_change s b).cur_band = (b : Int) ∧
    (main_band_change s b).last_memplace = 0 ∧
    (∀ t : Nat, t < 2 →
      arr_get (main_band_change s b).f_vfo t =
        (if is_mem_freq_ok (load_frequency1 s.eeprom ((384 + 68 * b + 4 * t : Nat) : Int)) b ≠ 0
          then load_frequency1 s.eeprom ((384 + 68 * b + 4 * t : Nat) : Int)
          else arr_get c_freq b) ∧
      is_mem_freq_ok (arr_get (main_band_change s b).f_vfo t) b = 1) ∧
    (∀ (s0 : Radio) (x0 x1 : Nat), s0.cur_band = (b : Int) → s0.f_vfo = [x0, x1] →
      x0 < 4294967296 → x1 < 4294967296 →
      load_frequency1 (main_key2 s0).eeprom ((384 + 68 * b + 4 * 0 : Nat) : Int) = x0 ∧
      load_frequency1 (main_key2 s0).eeprom ((384 + 68 * b + 4 * 1 : Nat) : Int) = x1) := by
  have hcb : int_of_u32 b = (b : Int) := by simp only [int_of_u32, wrap_int]; omega
  have h0 := load_vfo_address b 0 hb (by decide)
  have h1 := load_vfo_address b 1 hb (by decide)
  rw [hcb] at h0 h1
  simp only [Nat.cast_zero, Nat.cast_one] at h0 h1
  have hfv := main_band_change_f_vfo s b hb
  rw [load_vfo_f_vfo, load_vfo_f_vfo, load_vfo_eeprom, load_vfo_cur_band, hcb] at hfv
  simp only [h0, h1, hf] at hfv
  refine ⟨?_, ?_, ?_, ?_⟩
  · unfold main_band_change
    rw [if_pos hb]
    exact hcb
  · unfold main_band_change
    rw [if_pos hb]
  · intro t ht
    rw [hfv]
    interval_cases t
    · exact ⟨by simp [arr_get, arr_set], by simpa [arr_get, arr_set] using load_vfo_choice_ok b _ hb⟩
    · exact ⟨by simp [arr_get, arr_set], by simpa [arr_get, arr_set] using load_vfo_choice_ok b _ hb⟩
  · intro s0 x0 x1 hc0 hf0 hx0 hx1
    exact main_key2_persists s0 b x0 x1 hb hc0 hf0 hx0 hx1

theorem C12_band_change_witness :
    (main_band_change radio_two_vfos 3).cur_band = ((3 : Nat) : Int) ∧
    (main_band_change radio_two_vfos 3).last_memplace = 0 ∧
    (∀ t : Nat, t < 2 →
      arr_get (main_band_change radio_two_vfos 3).f_vfo t =
        (if is_mem_freq_ok (load_frequency1 radio_two_vfos.eeprom
              ((384 + 68 * 3 + 4 * t : Nat) : Int)) ((3 : Nat) : Int) ≠ 0
          then load_frequency1 radio_two_vfos.eeprom ((384 + 68 * 3 + 4 * t : Nat) : Int)
          else arr_get c_freq ((3 : Nat) : Int)) ∧
      is_mem_freq_ok (arr_get (main_band_change radio_two_vfos 3).f_vfo t) ((3 : Nat) : Int) = 1) ∧
    (∀ (s0 : Radio) (x0 x1 : Nat), s0.cur_band = ((3 : Nat) : Int) → s0.f_vfo = [x0, x1] →
      x0 < 4294967296 → x1 < 4294967296 →
      load_frequency1 (main_key2 s0).eeprom ((384 + 68 * 3 + 4 * 0 : Nat) : Int) = x0 ∧
      load_frequency1 (main_key2 s0).eeprom ((384 + 68 * 3 + 4 * 1 : Nat) : Int) = x1) :=
  C12_band_change radio_two_vfos 3 7000000 7100000 (by decide) rfl

/-! ## Split operation -/

/-- C13: after split TX-A/RX-B was selected (menu result 80) in receive, a PTT
assertion tunes synthesizer A to `f_vfo[0]` and shows `f_vfo[1]` as companion;
the following PTT release tunes synthesizer A to `f_vfo[1]` and shows
`f_vfo[0]` as companion; `f_vfo` is the same after each step. -/
theorem C13_split_txa_rxb (s : Radio) (a b : Nat) (p q ptt : Int)
    (hf : s.f_vfo = [a, b]) (hv : s.vfo_s = [p, q]) (hrx : s.txrx = 0)
    (hptt : ptt ≠ 0) :
    (main_ptt (main_split_select s 80) ptt).dds1_calls = (a, s.sideband) :: s.dds1_calls ∧
    (main_ptt (main_split_select s 80) ptt).companion_shown = b :: s.companion_shown ∧
    (main_ptt (main_split_select s 80) ptt).txrx = 1 ∧
    (main_ptt (main_split_select s 80) ptt).f_vfo = [a, b] ∧
    (main_ptt (main_ptt (main_split_select s 80) ptt) 0).dds1_calls
      = (b, s.sideband) :: (a, s.sideband) :: s.dds1_calls ∧
    (main_ptt (main_ptt (main_split_select s 80) ptt) 0).companion_shown
      = a :: b :: s.companion_shown ∧
    (main_ptt (main_ptt (main_split_select s 80) ptt) 0).txrx = 0 ∧
    (main_ptt (main_ptt (main_split_select s 80) ptt) 0).f_vfo = [a, b] := by
  simp [main_ptt, main_split_select, ptt_tx_switch, ptt_rx_switch, show_companion,
    set_frequency1, hf, hv, hrx, hptt, arr_get, iarr_get, iarr_set]

theorem C13_split_txa_rxb_witness :
    (main_ptt (main_split_select radio_two_vfos 80) 1).dds1_calls
      = (7000000, radio_two_vfos.sideband) :: radio_two_vfos.dds1_calls ∧
    (main_ptt (main_split_select radio_two_vfos 80) 1).companion_shown
      = 7100000 :: radio_two_vfos.companion_shown ∧
    (main_ptt (main_split_select radio_two_vfos 80) 1).txrx = 1 ∧
    (main_ptt (main_split_select radio_two_vfos 80) 1).f_vfo = [7000000, 7100000] ∧
    (main_ptt (main_ptt (main_split_select radio_two_vfos 80) 1) 0).dds1_calls
      = (7100000, radio_two_vfos.sideband) :: (7000000, radio_two_vfos.sideband)
        :: radio_two_vfos.dds1_calls ∧
    (main_ptt (main_ptt (main_split_select radio_two_vfos 80) 1) 0).companion_shown
      = 7000000 :: 7100000 :: radio_two_vfos.companion_shown ∧
    (main_ptt (main_ptt (main_split_select radio_two_vfos 80) 1) 0).txrx = 0 ∧
    (main_ptt (main_ptt (main_split_select radio_two_vfos 80) 1) 0).f_vfo = [7000000, 7100000] :=
  C13_split_txa_rxb radio_two_vfos 7000000 7100000 0 0 1 rfl rfl rfl (by decide)

/-- C14: after split TX-B/RX-A was selected (menu result 81) in receive, with
VFO A on 7000 kHz and VFO B on 7100 kHz, a PTT assertion tunes synthesizer A to
7000 kHz (VFO A) and shows 7100 kHz (VFO B) as companion, and the following
PTT release tunes synthesizer A to 7100 kHz (VFO B): the same as after menu
result 80. -/
theorem C14_split_txb_rxa_tunes_vfo_a :
    (main_split_select radio_two_vfos 81).split = 2 ∧
    (main_ptt (main_split_select radio_two_vfos 81) 1).dds1_calls = [(7000000, 0)] ∧
    (main_ptt (main_split_select radio_two_vfos 81) 1).companion_shown = [7100000] ∧
    (main_ptt (main_ptt (main_split_select radio_two_vfos 81) 1) 0).dds1_calls
      = [(7100000, 0), (7000000, 0)] ∧
    (main_ptt (main_ptt (main_split_select radio_two_vfos 81) 1) 0).companion_shown
      = [7000000, 7100000] ∧
    (main_ptt (main_ptt (main_split_select radio_two_vfos 81) 1) 0).dds1_calls
      = (main_ptt (main_ptt (main_split_select radio_two_vfos 80) 1) 0).dds1_calls := by
  decide

/-! ## Keypad -/

/-- C20: for every sampled ADC value `a`, `get_keys` returns 1, 2 or 3 exactly
when `a` lies strictly within 5 counts of the centre 39, 143 or 280, and 0
exactly when `a` lies in none of the three windows; no value lies in two
windows. -/
theorem C20_get_keys_windows (a : Int) :
    (get_keys a = 1 ↔ 39 - 5 < a ∧ a < 39 + 5) ∧
    (get_keys a = 2 ↔ 143 - 5 < a ∧ a < 143 + 5) ∧
    (get_keys a = 3 ↔ 280 - 5 < a ∧ a < 280 + 5) ∧
    (get_keys a = 0 ↔ ¬ (39 - 5 < a ∧ a < 39 + 5) ∧ ¬ (143 - 5 < a ∧ a < 143 + 5) ∧
      ¬ (280 - 5 < a ∧ a < 280 + 5)) ∧
    ¬ ((39 - 5 < a ∧ a < 39 + 5) ∧ (143 - 5 < a ∧ a < 143 + 5)) ∧
    ¬ ((39 - 5 < a ∧ a < 39 + 5) ∧ (280 - 5 < a ∧ a < 280 + 5)) ∧
    ¬ ((143 - 5 < a ∧ a < 143 + 5) ∧ (280 - 5 < a ∧ a < 280 + 5)) := by
  unfold get_keys
  split_ifs <;> omega

/-! ## Tuning words -/

theorem f32_drop_from_succ (k d x : Nat) :
    f32_drop_from (k + 1) d x = if x < 2 ^ (d + 24) then d else f32_drop_from k (d + 1) x := rfl

/-- The search started at `d` ends at the first binade that holds `x`. -/
theorem f32_drop_from_spec (k : Nat) : ∀ (d x : Nat), (d = 0 ∨ 2 ^ (d + 23) ≤ x) →
    x < 2 ^ (d + k + 24) →
    x < 2 ^ (f32_drop_from k d x + 24) ∧
      (f32_drop_from k d x = 0 ∨ 2 ^ (f32_drop_from k d x + 23) ≤ x) := by
  induction k with
  | zero =>
    intro d x h1 h2
    rw [Nat.add_zero] at h2
    simp only [f32_drop_from]
    exact ⟨h2, h1⟩
  | succ k ih =>
    intro d x h1 h2
    rw [f32_drop_from_succ]
    by_cases h : x < 2 ^ (d + 24)
    · rw [if_pos h]
      exact ⟨h, h1⟩
    · rw [if_neg h]
      apply ih (d + 1) x
      · right; rw [show d + 1 + 23 = d + 24 by omega]; exact Nat.le_of_not_lt h
      · rw [show d + 1 + k + 24 = d + (k + 1) + 24 by omega]; exact h2

/-- With `d = f32_drop x` bits dropped, `x` has at most 24 significant bits
left, and exactly 24 when `d > 0`. -/
theorem f32_drop_spec (x : Nat) (hx : x < 2 ^ 64) :
    x < 2 ^ (f32_drop x + 24) ∧ (f32_drop x = 0 ∨ 2 ^ (f32_drop x + 23) ≤ x) :=
  f32_drop_from_spec 40 0 x (Or.inl rfl) (by simpa using hx)

theorem f32_drop_mono (x y : Nat) (hxy : x ≤ y) (hy : y < 2 ^ 64) : f32_drop x ≤ f32_drop y := by
  by_contra hlt
  have hlt2 : f32_drop y + 1 ≤ f32_drop x := by omega
  have hx := f32_drop_spec x (by omega)
  have hy2 := f32_drop_spec y hy
  rcases hx.2 with h0 | h1
  · omega
  · have hp : 2 ^ (f32_drop y + 24) ≤ 2 ^ (f32_drop x + 23) :=
      Nat.pow_le_pow_right (by decide) (by omega)
    omega

/-- Rounding to nearest moves a quotient by at most half a unit. -/
theorem round_half_even_bounds (a b : Nat) (hb : 0 < b) :
    2 * (round_half_even a b * b) ≤ 2 * a + b ∧ 2 * a ≤ 2 * (round_half_even a b * b) + b := by
  have h := Nat.div_add_mod a b
  have hr := Nat.mod_lt a hb
  have hc : b * (a / b) = a / b * b := Nat.mul_comm _ _
  have hs : (a / b + 1) * b = a / b * b + b := by rw [Nat.add_mul, Nat.one_mul]
  unfold round_half_even
  split_ifs <;> (try rw [hs]) <;> generalize a / b * b = t at * <;> omega

theorem round_half_even_ge (a b : Nat) : a / b ≤ round_half_even a b := by
  unfold round_half_even; split_ifs <;> omega

theorem round_half_even_le (a b : Nat) : round_half_even a b ≤ a / b + 1 := by
  unfold round_half_even; split_ifs <;> omega

theorem round_half_even_mono (a c b : Nat) (h : a ≤ c) :
    round_half_even a b ≤ round_half_even c b := by
  have hq : a / b ≤ c / b := Nat.div_le_div_right h
  rcases Nat.lt_or_ge (a / b) (c / b) with hlt | hge
  · exact Nat.le_trans (round_half_even_le a b) (Nat.le_trans hlt (round_half_even_ge c b))
  · have he : a / b = c / b := by omega
    have ha := Nat.div_add_mod a b
    have hc := Nat.div_add_mod c b
    rw [he] at ha
    have hr : a % b ≤ c % b := by
      generalize b * (c / b) = t at *; omega
    unfold round_half_even
    rw [he]
    split_ifs <;> omega

/-- Rounding to the floating-point format moves a number by at most the
fraction `2^-24` of itself. -/
theorem f32_round_rel (x : Nat) (hx : x < 2 ^ 64) :
    16777216 * f32_round x ≤ 16777217 * x ∧ 16777215 * x ≤ 16777216 * f32_round x := by
  have hs := f32_drop_spec x hx
  have hb := round_half_even_bounds x (2 ^ f32_drop x) (Nat.two_pow_pos _)
  unfold f32_round
  rcases hs.2 with h0 | h1
  · rw [h0] at hb ⊢
    simp only [Nat.pow_zero, Nat.mul_one] at hb ⊢
    omega
  · rw [Nat.pow_add] at h1
    generalize round_half_even x (2 ^ f32_drop x) * 2 ^ f32_drop x = r at *
    generalize 2 ^ f32_drop x = b at *
    omega

/-- Rounding to the floating-point format is non-decreasing. -/
theorem f32_round_mono (x y : Nat) (hxy : x ≤ y) (hy : y < 2 ^ 64) :
    f32_round x ≤ f32_round y := by
  have hd := f32_drop_mono x y hxy hy
  have hsx := f32_drop_spec x (by omega)
  have hsy := f32_drop_spec y hy
  unfold f32_round
  rcases Nat.lt_or_ge (f32_drop x) (f32_drop y) with hlt | hge
  · have hpx : 0 < 2 ^ f32_drop x := Nat.two_pow_pos _
    have hpy : 0 < 2 ^ f32_drop y := Nat.two_pow_pos _
    have h1 : round_half_even x (2 ^ f32_drop x) ≤ 2 ^ 24 := by
      have : x / 2 ^ f32_drop x < 2 ^ 24 := by
        rw [Nat.div_lt_iff_lt_mul hpx, ← Nat.pow_add, Nat.add_comm]; exact hsx.1
      have := round_half_even_le x (2 ^ f32_drop x)
      omega
    have h2 : 2 ^ 23 ≤ round_half_even y (2 ^ f32_drop y) := by
      have h3 : 2 ^ (f32_drop y + 23) ≤ y := by
        rcases hsy.2 with h0 | h1
        · omega
        · exact h1
      have : 2 ^ 23 ≤ y / 2 ^ f32_drop y := by
        rw [Nat.le_div_iff_mul_le hpy, ← Nat.pow_add, Nat.add_comm]; exact h3
      exact Nat.le_trans this (round_half_even_ge _ _)
    calc round_half_even x (2 ^ f32_drop x) * 2 ^ f32_drop x
        ≤ 2 ^ 24 * 2 ^ f32_drop x := Nat.mul_le_mul_right _ h1
      _ = 2 ^ (f32_drop x + 24) := by rw [← Nat.pow_add, Nat.add_comm]
      _ ≤ 2 ^ (f32_drop y + 23) := Nat.pow_le_pow_right (by decide) (by omega)
      _ = 2 ^ 23 * 2 ^ f32_drop y := by rw [← Nat.pow_add, Nat.add_comm]
      _ ≤ round_half_even y (2 ^ f32_drop y) * 2 ^ f32_drop y := Nat.mul_le_mul_right _ h2
  · have he : f32_drop x = f32_drop y := by omega
    rw [he]
    exact Nat.mul_le_mul_right _ (round_half_even_mono x y _ hxy)

/-- Both `double` constants have the 24-bit significand 11258999. -/
theorem f32_constants : F32_10_73741824 = 11258999 ∧ F32_2_68435456 = 11258999 := by
  decide

/-- The prescale frequency in the HF range, without wrap-around. -/
theorem dds1_prescale_hf (f : Nat) (sb : Int) (hf : f ≤ 30000000) :
    dds1_prescale f sb = f + 3000 + INTERFREQUENCY - (if sb = 0 then 5000 else 0) := by
  simp only [dds1_prescale, add32, sub32, INTERFREQUENCY]
  split_ifs <;> omega

/-- The two roundings of a floating-point product of `x < 2^32` with the
significand 11258999, as relative bounds. -/
theorem f32_product_rel (x : Nat) (hx : x < 4294967296) :
    16777216 * f32_round x ≤ 16777217 * x ∧ 16777215 * x ≤ 16777216 * f32_round x ∧
    16777216 * f32_round (f32_round x * 11258999) ≤ 16777217 * (f32_round x * 11258999) ∧
    16777215 * (f32_round x * 11258999) ≤ 16777216 * f32_round (f32_round x * 11258999) := by
  have h1 := f32_round_rel x (by norm_num; omega)
  have h2 := f32_round_rel (f32_round x * 11258999) (by norm_num; omega)
  exact ⟨h1.1, h1.2, h2.1, h2.2⟩

/-- In the HF range the product fits `unsigned long`: the tuning word of
`set_frequency1` is the floating-point product with its fraction discarded. -/
theorem dds1_fword_hf (f : Nat) (sb : Int) (hf : f ≤ 30000000) :
    dds1_fword f sb = f32_round (f32_round (dds1_prescale f sb) * 11258999) / 1048576 := by
  have hp := dds1_prescale_hf f sb hf
  have hlt : dds1_prescale f sb ≤ 39003000 := by
    rw [hp]; simp only [INTERFREQUENCY]; split_ifs <;> omega
  have hr := f32_product_rel (dds1_prescale f sb) (by omega)
  rw [dds1_fword, f32_constants.1]
  apply Nat.mod_eq_of_lt
  omega

/-- The tuning word of `set_frequency2` with the constant spelled out. -/
theorem dds2_fword_eq (f : Nat) :
    dds2_fword f = f32_round (f32_round f * 11258999) / 4194304 := by
  rw [dds2_fword, f32_constants.2]

/-- In the HF range the tuning word of `set_frequency1` is non-decreasing in
the operating frequency. -/
theorem dds1_fword_mono (f1 f2 : Nat) (sb : Int) (h12 : f1 ≤ f2) (h2 : f2 ≤ 30000000) :
    dds1_fword f1 sb ≤ dds1_fword f2 sb := by
  have hp1 := dds1_prescale_hf f1 sb (by omega)
  have hp2 := dds1_prescale_hf f2 sb h2
  have hle : dds1_prescale f1 sb ≤ dds1_prescale f2 sb := by
    rw [hp1, hp2]; simp only [INTERFREQUENCY]; split_ifs <;> omega
  have hlt : dds1_prescale f2 sb ≤ 39003000 := by
    rw [hp2]; simp only [INTERFREQUENCY]; split_ifs <;> omega
  have hr := f32_product_rel (dds1_prescale f2 sb) (by omega)
  rw [dds1_fword_hf f1 sb (by omega), dds1_fword_hf f2 sb h2]
  apply Nat.div_le_div_right
  apply f32_round_mono _ _ _ (by norm_num; omega)
  apply Nat.mul_le_mul_right
  exact f32_round_mono _ _ hle (by norm_num; omega)

/-- In the HF range the tuning word of `set_frequency1` lies within
`1 + p / 2^22` of the exact product `p` with `2^32 / 400000000`. -/
theorem dds1_fword_near (f : Nat) (sb : Int) (hf : f ≤ 30000000) :
    dds1_fword f sb * 100000000
      ≤ dds1_prescale f sb * 1073741824 + (dds1_prescale f sb * 256 + 100000000) ∧
    dds1_prescale f sb * 1073741824
      ≤ dds1_fword f sb * 100000000 + (dds1_prescale f sb * 256 + 100000000) := by
  have hp := dds1_prescale_hf f sb hf
  have hlt : dds1_prescale f sb ≤ 39003000 := by
    rw [hp]; simp only [INTERFREQUENCY]; split_ifs <;> omega
  have hr := f32_product_rel (dds1_prescale f sb) (by omega)
  rw [dds1_fword_hf f sb hf]
  generalize f32_round (f32_round (dds1_prescale f sb) * 11258999) = r at *
  generalize f32_round (dds1_prescale f sb) = r1 at *
  generalize dds1_prescale f sb = x at *
  omega

/-- C15, as stated, fails: for 7100 kHz on sideband 0 the exact product is
172850958.83, its nearest integer is 172850959, and `set_frequency1` computes
172850960; for the LO frequency 9001420 the exact product is 24163002.82, its
nearest integer is 24163003, and `set_frequency2` computes 24163002. -/
theorem C15_not_nearest :
    dds1_fword 7100000 0 = 172850960 ∧
    spec_nearest (dds1_prescale 7100000 0 * 1073741824) 100000000 = 172850959 ∧
    dds1_fword 7100000 0 ≠ spec_nearest (dds1_prescale 7100000 0 * 1073741824) 100000000 ∧
    dds2_fword 9001420 = 24163002 ∧
    spec_nearest (9001420 * 268435456) 100000000 = 24163003 ∧
    dds2_fword 9001420 ≠ spec_nearest (9001420 * 268435456) 100000000 := by
  decide

/-- C15, amended: for every operating frequency `f <= 30 MHz` and either
sideband, the tuning word of `set_frequency1` is the product of
`f + 3000 + INTERFREQUENCY + s` (`s = -5000` for sideband 0, `s = 0`
otherwise) and 10.73741824 as the 32-bit floating-point arithmetic of the
target forms it (operand, constant and product each rounded to 24 significant
bits, the significand of the constant being 11258999), with the fraction
discarded; the tuning word of `set_frequency2` is the product of `f` and
2.68435456 formed the same way. Each word lies within `1 + p / 2^22` of the
exact product `p`; it is obtained by roundings of the significand and a
conversion that discards the fraction, not by rounding the exact product to
the nearest integer. -/
theorem C15_tuning_words_float (f : Nat) (sb : Int) (hf : f ≤ 30000000) :
    dds1_prescale f sb = f + 3000 + INTERFREQUENCY - (if sb = 0 then 5000 else 0) ∧
    dds1_fword f sb = f32_round (f32_round (dds1_prescale f sb) * 11258999) / 1048576 ∧
    dds1_fword f sb * 100000000
      ≤ dds1_prescale f sb * 1073741824 + (dds1_prescale f sb * 256 + 100000000) ∧
    dds1_prescale f sb * 1073741824
      ≤ dds1_fword f sb * 100000000 + (dds1_prescale f sb * 256 + 100000000) ∧
    dds2_fword f = f32_round (f32_round f * 11258999) / 4194304 ∧
    dds2_fword f * 100000000 ≤ f * 268435456 + (f * 64 + 100000000) ∧
    f * 268435456 ≤ dds2_fword f * 100000000 + (f * 64 + 100000000) := by
  have hr := f32_product_rel f (by omega)
  refine ⟨dds1_prescale_hf f sb hf, dds1_fword_hf f sb hf, (dds1_fword_near f sb hf).1,
    (dds1_fword_near f sb hf).2, dds2_fword_eq f, ?_, ?_⟩
  · rw [dds2_fword_eq]
    generalize f32_round (f32_round f * 11258999) = r at *
    generalize f32_round f = r1 at *
    omega
  · rw [dds2_fword_eq]
    generalize f32_round (f32_round f * 11258999) = r at *
    generalize f32_round f = r1 at *
    omega

theorem C15_tuning_words_float_witness :
    dds1_prescale 7100000 0 = 7100000 + 3000 + INTERFREQUENCY - (if (0 : Int) = 0 then 5000 else 0) ∧
    dds1_fword 7100000 0 = f32_round (f32_round (dds1_prescale 7100000 0) * 11258999) / 1048576 ∧
    dds1_fword 7100000 0 * 100000000
      ≤ dds1_prescale 7100000 0 * 1073741824 + (dds1_prescale 7100000 0 * 256 + 100000000) ∧
    dds1_prescale 7100000 0 * 1073741824
      ≤ dds1_fword 7100000 0 * 100000000 + (dds1_prescale 7100000 0 * 256 + 100000000) ∧
    dds2_fword 7100000 = f32_round (f32_round 7100000 * 11258999) / 4194304 ∧
    dds2_fword 7100000 * 100000000 ≤ 7100000 * 268435456 + (7100000 * 64 + 100000000) ∧
    7100000 * 268435456 ≤ dds2_fword 7100000 * 100000000 + (7100000 * 64 + 100000000) :=
  C15_tuning_words_float 7100000 0 (by decide)

/-- C16, as stated, fails: on sideband 0 the frequencies 7000001 and 7000002
get the same tuning word 171777232 from `set_frequency1`, and so do 14000000
and 14000001 (246939136): the word for the lower frequency is not strictly
smaller. -/
theorem C16_not_strict :
    dds1_fword 7000001 0 = 171777232 ∧ dds1_fword 7000002 0 = 171777232 ∧
    ¬ (dds1_fword 7000001 0 < dds1_fword 7000002 0) ∧
    dds1_fword 14000000 0 = 246939136 ∧ dds1_fword 14000001 0 = 246939136 ∧
    ¬ (dds1_fword 14000000 0 < dds1_fword 14000001 0) := by
  decide

/-- C16, amended: for a fixed sideband and operating frequencies
`f1 < f2 <= 30 MHz`, the tuning word of `set_frequency1` for `f1` is not
greater than the one for `f2`, and it is strictly smaller when `f2` is at
least 20 Hz above `f1`. -/
theorem C16_fword_monotone (f1 f2 : Nat) (sb : Int) (h12 : f1 < f2) (h2 : f2 ≤ 30000000) :
    dds1_fword f1 sb ≤ dds1_fword f2 sb ∧
    (f1 + 20 ≤ f2 → dds1_fword f1 sb < dds1_fword f2 sb) := by
  refine ⟨dds1_fword_mono f1 f2 sb (by omega) h2, ?_⟩
  intro h20
  have hp1 := dds1_prescale_hf f1 sb (by omega)
  have hp2 := dds1_prescale_hf f2 sb h2
  have hn1 := dds1_fword_near f1 sb (by omega)
  have hn2 := dds1_fword_near f2 sb h2
  have hgap : dds1_prescale f1 sb + 20 ≤ dds1_prescale f2 sb ∧ dds1_prescale f2 sb ≤ 39003000 := by
    rw [hp1, hp2]; simp only [INTERFREQUENCY]; split_ifs <;> omega
  generalize dds1_fword f1 sb = w1 at *
  generalize dds1_fword f2 sb = w2 at *
  generalize dds1_prescale f1 sb = x1 at *
  generalize dds1_prescale f2 sb = x2 at *
  omega

theorem C16_fword_monotone_witness :
    dds1_fword 7100000 1 ≤ dds1_fword 7100020 1 ∧
    (7100000 + 20 ≤ 7100020 → dds1_fword 7100000 1 < dds1_fword 7100020 1) :=
  C16_fword_monotone 7100000 7100020 1 (by decide) (by decide)

/-- C17: for every operating frequency `f` the frequency that `set_frequency1`
scales is, in `unsigned long` arithmetic, exactly 5000 higher on sideband 1
(USB) than on sideband 0 (LSB), and plainly so while `f + 9003000` fits 32
bits; hence for every `f >= 5000` the two sidebands scale the same number at
`(f, LSB)` and `(f - 5000, USB)`, and the tuning word for `(f, LSB)` equals
the tuning word for `(f - 5000, USB)`. -/
theorem C17_sideband_offset (f : Nat) :
    sub32 (dds1_prescale f 1) (dds1_prescale f 0) = 5000 ∧
    (f + 9003000 < 4294967296 → dds1_prescale f 1 = dds1_prescale f 0 + 5000) ∧
    (5000 ≤ f → dds1_prescale f 0 = dds1_prescale (f - 5000) 1) ∧
    (5000 ≤ f → dds1_fword f 0 = dds1_fword (f - 5000) 1) := by
  have hp : 5000 ≤ f → dds1_prescale f 0 = dds1_prescale (f - 5000) 1 := by
    intro h5
    simp only [dds1_prescale, add32, sub32, INTERFREQUENCY]
    simp only [if_true, if_neg (show ¬ ((1 : Int) = 0) by decide)]
    omega
  refine ⟨?_, ?_, hp, ?_⟩
  · simp only [dds1_prescale, add32, sub32, INTERFREQUENCY]
    simp only [if_true, if_neg (show ¬ ((1 : Int) = 0) by decide)]
    omega
  · intro h
    simp only [dds1_prescale, add32, sub32, INTERFREQUENCY]
    simp only [if_true, if_neg (show ¬ ((1 : Int) = 0) by decide)]
    omega
  · intro h5
    simp only [dds1_fword, hp h5]

theorem C17_sideband_offset_witness :
    (sub32 (dds1_prescale 7100000 1) (dds1_prescale 7100000 0) = 5000 ∧
      dds1_prescale 7100000 1 = dds1_prescale 7100000 0 + 5000 ∧
      dds1_prescale 7100000 0 = dds1_prescale (7100000 - 5000) 1 ∧
      dds1_fword 7100000 0 = dds1_fword (7100000 - 5000) 1) ∧
    sub32 (dds1_prescale 1000 1) (dds1_prescale 1000 0) = 5000 ∧
    sub32 (dds1_prescale 4294960000 1) (dds1_prescale 4294960000 0) = 5000 :=
  ⟨⟨(C17_sideband_offset 7100000).1, (C17_sideband_offset 7100000).2.1 (by decide),
    (C17_sideband_offset 7100000).2.2.1 (by decide),
    (C17_sideband_offset 7100000).2.2.2 (by decide)⟩,
   (C17_sideband_offset 1000).1, (C17_sideband_offset 4294960000).1⟩

/-! ## Serial transfers -/

theorem land_two_pow (v j : Nat) : v &&& 2 ^ j = if v.testBit j then 2 ^ j else 0 := by
  apply Nat.eq_of_testBit_eq
  intro i
  rw [Nat.testBit_and, Nat.testBit_two_pow]
  by_cases h : j = i
  · subst h; cases hv : v.testBit j <;> simp [Nat.testBit_two_pow_self]
  · cases hv : v.testBit j <;> simp [h, Nat.testBit_two_pow, hv]

theorem land_two_pow_ne_zero (v j : Nat) : decide (v &&& 2 ^ j ≠ 0) = v.testBit j := by
  rw [land_two_pow]
  cases v.testBit j <;> simp

theorem half_two_pow_succ (n : Nat) : (2 ^ (n + 1)) >>> 1 = 2 ^ n := by
  rw [Nat.shiftRight_eq_div_pow, pow_succ]
  omega

theorem dds1_send_bits_eq (v : Nat) : ∀ n : Nat,
    dds1_send_bits v (n + 1) (2 ^ n) = dds1_clock_out (msb_bits v (n + 1))
  | 0 => by
    simp only [dds1_send_bits, dds1_send_bit, dds1_clock_out, msb_bits, land_two_pow_ne_zero]
  | n + 1 => by
    rw [dds1_send_bits, half_two_pow_succ, dds1_send_bits_eq v n, dds1_send_bit,
      land_two_pow_ne_zero]
    rfl

theorem msb_bits_congr (a b : Nat) : ∀ n : Nat, (∀ j, j < n → a.testBit j = b.testBit j) →
    msb_bits a n = msb_bits b n
  | 0, _ => rfl
  | n + 1, h => by
    rw [msb_bits, msb_bits, h n (Nat.lt_succ_self n),
      msb_bits_congr a b n (fun j hj => h j (Nat.lt_succ_of_lt hj))]

theorem msb_bits_append (w n : Nat) : ∀ m : Nat,
    msb_bits w (m + n) = msb_bits (w >>> n) m ++ msb_bits w n
  | 0 => by simp [msb_bits]
  | m + 1 => by
    rw [show m + 1 + n = (m + n) + 1 by omega, msb_bits, msb_bits, msb_bits_append w n m,
      Nat.testBit_shiftRight, Nat.add_comm n m]
    rfl

theorem bits_value_aux (v : Nat) : ∀ (n acc : Nat),
    (msb_bits v n).foldl (fun acc b => 2 * acc + b.toNat) acc = acc * 2 ^ n + v % 2 ^ n
  | 0, acc => by simp [msb_bits, Nat.mod_one]
  | n + 1, acc => by
    rw [msb_bits, List.foldl_cons, bits_value_aux v n, Nat.toNat_testBit, Nat.mod_pow_succ]
    ring

theorem bits_value_msb_bits (v n : Nat) : bits_value (msb_bits v n) = v % 2 ^ n := by
  rw [bits_value, bits_value_aux]; simp

theorem dds2_fill_eq (w k : Nat) : ∀ n : Nat,
    dds2_fill w (n + 1) (2 ^ (k + n)) = (msb_bits (w >>> k) (n + 1)).map Bool.toNat
  | 0 => by
    simp only [dds2_fill, msb_bits, List.map, Nat.add_zero, land_two_pow, Nat.testBit_shiftRight]
    cases w.testBit k <;> simp
  | n + 1 => by
    have e : msb_bits (w >>> k) (n + 1 + 1)
        = (w >>> k).testBit (n + 1) :: msb_bits (w >>> k) (n + 1) := rfl
    rw [dds2_fill, show k + (n + 1) = (k + n) + 1 by omega, half_two_pow_succ, dds2_fill_eq w k n,
      land_two_pow, e, List.map_cons, Nat.testBit_shiftRight,
      show k + (n + 1) = k + n + 1 by omega]
    cases w.testBit (k + n + 1) <;> simp

theorem dds2_send_array_eq : ∀ bs : List Bool,
    dds2_send_array (bs.map Bool.toNat) = dds2_clock_out bs
  | [] => rfl
  | b :: bs => by
    rw [List.map, dds2_send_array, dds2_send_array_eq bs, dds2_clock_out, dds2_send_bit]
    cases b <;> rfl

theorem fword_byte_bits (w s : Nat) (h : ∀ j, j < 8 → (255 <<< s).testBit (s + j) = true) :
    msb_bits ((w &&& (255 <<< s)) >>> s) 8 = msb_bits (w >>> s) 8 := by
  apply msb_bits_congr
  intro j hj
  rw [Nat.testBit_shiftRight, Nat.testBit_shiftRight, Nat.testBit_and, h j hj, Bool.and_true]

theorem dds1_clock_out_append : ∀ a b : List Bool,
    dds1_clock_out (a ++ b) = dds1_clock_out a ++ dds1_clock_out b
  | [], b => rfl
  | x :: a, b => by
    rw [List.cons_append, dds1_clock_out, dds1_clock_out, dds1_clock_out_append a b,
      List.append_assoc]

theorem msb_bits_32 (w : Nat) :
    msb_bits w 32 = msb_bits (w >>> 24) 8 ++ (msb_bits (w >>> 16) 8
      ++ (msb_bits (w >>> 8) 8 ++ msb_bits (w >>> 0) 8)) := by
  rw [show (32 : Nat) = 8 + 24 by rfl, msb_bits_append w 24 8,
    show (24 : Nat) = 8 + 16 by rfl, msb_bits_append w 16 8,
    show (16 : Nat) = 8 + 8 by rfl, msb_bits_append w 8 8]
  rfl

theorem dds1_send_fword_eq (w : Nat) :
    dds1_send_fword w 4 4278190080 24 = dds1_clock_out (msb_bits w 32) := by
  have e : dds1_send_fword w 4 4278190080 24
      = dds1_send_bits ((w &&& (255 <<< 24)) >>> 24) (7 + 1) (2 ^ 7)
        ++ (dds1_send_bits ((w &&& (255 <<< 16)) >>> 16) (7 + 1) (2 ^ 7)
        ++ (dds1_send_bits ((w &&& (255 <<< 8)) >>> 8) (7 + 1) (2 ^ 7)
        ++ (dds1_send_bits ((w &&& (255 <<< 0)) >>> 0) (7 + 1) (2 ^ 7) ++ []))) := rfl
  rw [e, dds1_send_bits_eq, dds1_send_bits_eq, dds1_send_bits_eq, dds1_send_bits_eq,
    fword_byte_bits w 24 (by decide), fword_byte_bits w 16 (by decide),
    fword_byte_bits w 8 (by decide), fword_byte_bits w 0 (by decide), msb_bits_32,
    dds1_clock_out_append, dds1_clock_out_append, dds1_clock_out_append, List.append_nil]

theorem dds1_transfer_eq (w : Nat) :
    dds1_transfer w = [(Pin.DDS1_IO_UD, false)]
      ++ dds1_clock_out (msb_bits 4 8 ++ msb_bits w 32) ++ [(Pin.DDS1_IO_UD, true)] := by
  rw [dds1_transfer, dds1_send_fword_eq, dds1_clock_out_append,
    show dds1_send_bits 4 8 128 = dds1_clock_out (msb_bits 4 8) from dds1_send_bits_eq 4 7]
  simp only [List.append_assoc]

theorem dds2_transfer_eq (w : Nat) :
    dds2_transfer w = dds2_frame (msb_bits 8192 16)
      ++ dds2_frame ([false, true] ++ msb_bits w 14)
      ++ dds2_frame ([false, true] ++ msb_bits (w >>> 14) 14) := by
  have hc : dds2_send_control 16 = dds2_clock_out (msb_bits 8192 16) := by decide
  have hl : dds2_l w = ([false, true] ++ msb_bits w 14).map Bool.toNat := by
    rw [dds2_l, show (8192 : Nat) = 2 ^ (0 + 13) by rfl, dds2_fill_eq w 0 13]
    rfl
  have hm : dds2_m w = ([false, true] ++ msb_bits (w >>> 14) 14).map Bool.toNat := by
    rw [dds2_m, show (134217728 : Nat) = 2 ^ (14 + 13) by rfl, dds2_fill_eq w 14 13]
    rfl
  rw [dds2_transfer, hc, hl, hm, dds2_send_array_eq, dds2_send_array_eq]
  rfl

theorem msb_bits_length (v : Nat) : ∀ n : Nat, (msb_bits v n).length = n
  | 0 => rfl
  | n + 1 => by rw [msb_bits, List.length_cons, msb_bits_length v n]

theorem dds1_clock_out_no_io_ud : ∀ (bs : List Bool) (p : PinWrite),
    p ∈ dds1_clock_out bs → p.1 ≠ Pin.DDS1_IO_UD
  | [], p, h => by simp [dds1_clock_out] at h
  | b :: bs, p, h => by
    rw [dds1_clock_out, List.mem_append] at h
    rcases h with h | h
    · simp only [List.mem_cons, List.mem_singleton, List.not_mem_nil, or_false] at h
      rcases h with h | h | h <;> rw [h] <;> simp
    · exact dds1_clock_out_no_io_ud bs p h

/-- C18: for every tuning word `w`, the transfer of `set_frequency1` writes
`DDS1_IO_UD` low, then clocks out exactly 40 bits, the 8 bits of the
instruction 0x04 followed by the 32 bits of `w`, each most significant bit
first, without touching `DDS1_IO_UD`, and then writes `DDS1_IO_UD` high; the
last 32 bits spell `w`. -/
theorem C18_dds1_transaction (w : Nat) (hw : w < 4294967296) :
    dds1_transfer w = [(Pin.DDS1_IO_UD, false)]
      ++ dds1_clock_out (msb_bits 4 8 ++ msb_bits w 32) ++ [(Pin.DDS1_IO_UD, true)] ∧
    (∀ p, p ∈ dds1_clock_out (msb_bits 4 8 ++ msb_bits w 32) → p.1 ≠ Pin.DDS1_IO_UD) ∧
    (msb_bits 4 8 ++ msb_bits w 32).length = 40 ∧
    bits_value (msb_bits 4 8) = 4 ∧
    (msb_bits 4 8 ++ msb_bits w 32).drop 8 = msb_bits w 32 ∧
    bits_value ((msb_bits 4 8 ++ msb_bits w 32).drop 8) = w := by
  have hd : (msb_bits 4 8 ++ msb_bits w 32).drop 8 = msb_bits w 32 := by
    rw [List.drop_append_of_le_length (by rw [msb_bits_length])]
    simp [msb_bits_length]
  refine ⟨dds1_transfer_eq w, dds1_clock_out_no_io_ud _, ?_, by decide, hd, ?_⟩
  · rw [List.length_append, msb_bits_length, msb_bits_length]
  · rw [hd, bits_value_msb_bits]
    exact Nat.mod_eq_of_lt hw

theorem C18_dds1_transaction_witness :
    dds1_transfer 172850958 = [(Pin.DDS1_IO_UD, false)]
      ++ dds1_clock_out (msb_bits 4 8 ++ msb_bits 172850958 32) ++ [(Pin.DDS1_IO_UD, true)] ∧
    (∀ p, p ∈ dds1_clock_out (msb_bits 4 8 ++ msb_bits 172850958 32) →
      p.1 ≠ Pin.DDS1_IO_UD) ∧
    (msb_bits 4 8 ++ msb_bits 172850958 32).length = 40 ∧
    bits_value (msb_bits 4 8) = 4 ∧
    (msb_bits 4 8 ++ msb_bits 172850958 32).drop 8 = msb_bits 172850958 32 ∧
    bits_value ((msb_bits 4 8 ++ msb_bits 172850958 32).drop 8) = 172850958 :=
  C18_dds1_transaction 172850958 (by decide)

theorem dds2_clock_out_no_fsync : ∀ (bs : List Bool) (p : PinWrite),
    p ∈ dds2_clock_out bs → p.1 ≠ Pin.DDS2_FSYNC
  | [], p, h => by simp [dds2_clock_out] at h
  | b :: bs, p, h => by
    rw [dds2_clock_out, List.mem_append] at h
    rcases h with h | h
    · simp only [List.mem_cons, List.mem_singleton, List.not_mem_nil, or_false] at h
      rcases h with h | h | h <;> rw [h] <;> simp
    · exact dds2_clock_out_no_fsync bs p h

/-- C19: for every tuning word `w` below `2^28`, the transfer of
`set_frequency2` is exactly three frames of 16 bits, in this order: the control
frame 0x2000, a frame with the bits 0, 1 followed by bits 13..0 of `w`, and a
frame with the bits 0, 1 followed by bits 27..14 of `w`. Each frame is what
`dds2_start` and `dds2_stop` bracket: with SCLK high FSYNC goes low, the 16
bits are clocked in without touching FSYNC, and FSYNC goes high. The two
payloads, high then low, spell `w`. The call `set_frequency2(f)` makes this
transfer for the tuning word of `f`. -/
theorem C19_dds2_frames (w : Nat) (hw : w < 268435456) :
    dds2_transfer w = dds2_frame (msb_bits 8192 16)
      ++ dds2_frame ([false, true] ++ msb_bits w 14)
      ++ dds2_frame ([false, true] ++ msb_bits (w >>> 14) 14) ∧
    (∀ bs, dds2_frame bs = dds2_start ++ dds2_clock_out bs ++ dds2_stop) ∧
    (∀ bs, dds2_frame bs = [(Pin.DDS2_SCLK, true), (Pin.DDS2_FSYNC, false)]
      ++ dds2_clock_out bs ++ [(Pin.DDS2_FSYNC, true)]) ∧
    (∀ bs p, p ∈ dds2_clock_out bs → p.1 ≠ Pin.DDS2_FSYNC) ∧
    (msb_bits 8192 16).length = 16 ∧ bits_value (msb_bits 8192 16) = 8192 ∧
    ([false, true] ++ msb_bits w 14).length = 16 ∧
    ([false, true] ++ msb_bits (w >>> 14) 14).length = 16 ∧
    bits_value (msb_bits (w >>> 14) 14 ++ msb_bits w 14) = w ∧
    (∀ f, dds2_fword f = w → set_frequency2_pins f = dds2_transfer w) := by
  refine ⟨dds2_transfer_eq w, fun _ => rfl, fun _ => rfl, dds2_clock_out_no_fsync,
    by decide, by decide, ?_, ?_, ?_, ?_⟩
  · rw [List.length_append, msb_bits_length]; rfl
  · rw [List.length_append, msb_bits_length]; rfl
  · rw [← msb_bits_append w 14 14, bits_value_msb_bits]
    exact Nat.mod_eq_of_lt hw
  · intro f hf
    rw [set_frequency2_pins, hf]

theorem C19_dds2_frames_witness :
    dds2_fword 9001420 = 24163002 ∧
    set_frequency2_pins 9001420 = dds2_transfer 24163002 ∧
    dds2_transfer 24163002 = dds2_frame (msb_bits 8192 16)
      ++ dds2_frame ([false, true] ++ msb_bits 24163002 14)
      ++ dds2_frame ([false, true] ++ msb_bits (24163002 >>> 14) 14) ∧
    (msb_bits 8192 16).length = 16 ∧ bits_value (msb_bits 8192 16) = 8192 ∧
    ([false, true] ++ msb_bits 24163002 14).length = 16 ∧
    ([false, true] ++ msb_bits (24163002 >>> 14) 14).length = 16 ∧
    bits_value (msb_bits (24163002 >>> 14) 14 ++ msb_bits 24163002 14) = 24163002 :=
  ⟨by decide,
   (C19_dds2_frames 24163002 (by decide)).2.2.2.2.2.2.2.2.2 9001420 (by decide),
   (C19_dds2_frames 24163002 (by decide)).1,
   (C19_dds2_frames 24163002 (by decide)).2.2.2.2.1,
   (C19_dds2_frames 24163002 (by decide)).2.2.2.2.2.1,
   (C19_dds2_frames 24163002 (by decide)).2.2.2.2.2.2.1,
   (C19_dds2_frames 24163002 (by decide)).2.2.2.2.2.2.2.1,
   (C19_dds2_frames 24163002 (by decide)).2.2.2.2.2.2.2.2.1⟩

/-! ## Encoder -/

/-- C21, as stated, fails: for 32 edges the product 32768 does not fit the
16-bit `int` and `calc_tuningfactor` yields -32768. -/
theorem C21_overflow_at_32 :
    calc_tuningfactor 32 = -32768 ∧ calc_tuningfactor 32 ≠ 32 * 32 * 32 := by
  decide

/-- C21, amended: for every number `n` of encoder edges with `0 <= n <= 31`,
`calc_tuningfactor` returns exactly `n*n*n` with no cap (1, 2, 3 give 1, 8, 27
and 31 gives 29791). -/
theorem C21_cube_law (n : Int) (h0 : 0 ≤ n) (h31 : n ≤ 31) :
    calc_tuningfactor n = n * n * n ∧
    calc_tuningfactor 1 = 1 ∧ calc_tuningfactor 2 = 8 ∧ calc_tuningfactor 3 = 27 ∧
    calc_tuningfactor 31 = 29791 := by
  refine ⟨?_, by decide, by decide, by decide, by decide⟩
  interval_cases n <;> decide

theorem C21_cube_law_witness :
    calc_tuningfactor 7 = 7 * 7 * 7 ∧
    calc_tuningfactor 1 = 1 ∧ calc_tuningfactor 2 = 8 ∧ calc_tuningfactor 3 = 27 ∧
    calc_tuningfactor 31 = 29791 :=
  C21_cube_law 7 (by decide) (by decide)

set_option maxRecDepth 100000 in
/-- Value given to `tuningknob` for every value of the 8-bit port register. -/
theorem isr_int2_knob_table : ∀ p : Fin 256,
    wrap_int ((((p.val >>> 2) &&& 3 : Nat) : Int) - 2) =
      (if p.val.testBit 2 then (if p.val.testBit 3 then 1 else -1)
        else (if p.val.testBit 3 then 0 else -2)) := by
  decide

/-- C28 does not hold of the code: for every radio state and every value `p`
of the 8-bit port register `PIND`, the encoder interrupt sets `tuningknob` to
+1 (PD2 high, PD3 high), -1 (PD2 high, PD3 low), 0 (PD2 low, PD3 high) or -2
(PD2 and PD3 low); the step is +1 or -1 exactly when PD2 is sampled high. With
PD2 sampled low, as for the port values 0 and 8, it is -2 or 0. The edge
counter `tuningcount` is incremented by one in 16-bit `int` arithmetic. -/
theorem C28_knob_not_unit_when_pd2_low (s : Radio) (p : Fin 256) :
    (isr_int2 s p.val).tuningknob =
      (if p.val.testBit 2 then (if p.val.testBit 3 then 1 else -1)
        else (if p.val.testBit 3 then 0 else -2)) ∧
    (((isr_int2 s p.val).tuningknob = 1 ∨ (isr_int2 s p.val).tuningknob = -1)
      ↔ p.val.testBit 2 = true) ∧
    (isr_int2 s 0).tuningknob = -2 ∧ (isr_int2 s 8).tuningknob = 0 ∧
    (isr_int2 s 4).tuningknob = -1 ∧ (isr_int2 s 12).tuningknob = 1 ∧
    (isr_int2 s p.val).tuningcount = wrap_int (s.tuningcount + 1) := by
  have ht : (isr_int2 s p.val).tuningknob =
      (if p.val.testBit 2 then (if p.val.testBit 3 then 1 else -1)
        else (if p.val.testBit 3 then 0 else -2)) := isr_int2_knob_table p
  refine ⟨ht, ?_, isr_int2_knob_table 0, isr_int2_knob_table 8, isr_int2_knob_table 4,
    isr_int2_knob_table 12, rfl⟩
  rw [ht]
  cases p.val.testBit 2 <;> cases p.val.testBit 3 <;> simp

/-! ## Band tables -/

/-- C24: every band `b` in 0..5 has entries `lo = band_f0[b]`, `c = c_freq[b]`
and `hi = band_f1[b]` with `lo <= c <= hi`, so `is_mem_freq_ok(c_freq[b], b)`
returns 1. -/
theorem C24_centre_in_band (b : Nat) (hb : b < 6) :
    ∃ lo c hi, band_f0[b]? = some lo ∧ c_freq[b]? = some c ∧ band_f1[b]? = some hi ∧
      lo ≤ c ∧ c ≤ hi ∧ arr_get c_freq (b : Int) = c ∧
      is_mem_freq_ok (arr_get c_freq (b : Int)) (b : Int) = 1 := by
  interval_cases b <;>
    exact ⟨_, _, _, rfl, rfl, rfl, by decide, by decide, by decide, by decide⟩

theorem C24_centre_in_band_witness :
    ∃ lo c hi, band_f0[4]? = some lo ∧ c_freq[4]? = some c ∧ band_f1[4]? = some hi ∧
      lo ≤ c ∧ c ≤ hi ∧ arr_get c_freq ((4 : Nat) : Int) = c ∧
      is_mem_freq_ok (arr_get c_freq ((4 : Nat) : Int)) ((4 : Nat) : Int) = 1 :=
  C24_centre_in_band 4 (by decide)

/-! ## Scanner -/

/-- C23: in band 2 with 7050 kHz in slot 0 and 7060 kHz in slot 1, key 2
pressed while the memory scan rests on slot 0 makes `scan(0)` return 0, and the
main loop leaves `f_vfo[cur_vfo]` at 7000 kHz; the same on slot 1 makes
`scan(0)` return 1 and sets `f_vfo[cur_vfo]` to 7060 kHz. -/
theorem C23_slot0_confirm_ignored :
    load_frequency0 radio_mem_slots01 0 = 7050000 ∧
    is_mem_freq_ok (load_frequency0 radio_mem_slots01 0) radio_mem_slots01.cur_band = 1 ∧
    (scan_mem radio_mem_slots01 [pass_key_at 0 2]).map (fun r => (r.value, r.key))
      = some (0, 2) ∧
    (main_case70 radio_mem_slots01 [pass_key_at 0 2]).map (fun r => r.f_vfo)
      = some [7000000, 7100000] ∧
    (scan_mem radio_mem_slots01 [pass_key_at 1 2]).map (fun r => (r.value, r.key))
      = some (1, 2) ∧
    (main_case70 radio_mem_slots01 [pass_key_at 1 2]).map (fun r => r.f_vfo)
      = some [7060000, 7100000] := by
  decide

/-- C25: in band 2 with 7050 kHz in slot 15 and every other slot empty, a pass
of the memory scan with no key pressed visits the slots 0..14 in ascending
order, each once, and ends; slot 15 is not visited and synthesizer A is not
tuned. -/
theorem C25_slot15_not_visited :
    load_frequency0 radio_mem_slot15 15 = 7050000 ∧
    is_mem_freq_ok (load_frequency0 radio_mem_slot15 15) radio_mem_slot15.cur_band = 1 ∧
    (scan_mem_pass radio_mem_slot15 (fun _ => slot_quiet) scan_mem_init).map
        (fun m => (m.key, m.steps.reverse.map (fun st => st.slot), m.tuned))
      = some (0, [0, 1, 2, 3, 4, 5, 6, 7, 8, 9, 10, 11, 12, 13, 14], []) := by
  decide

/-- C26: with the edges 7000000 and 7000100 loaded, a sweep of the band scan
with no key pressed tunes synthesizer A to 7000000, 7000100 and 7000200, the
last one above the upper edge; key 2 pressed in that last step makes `scan(1)`
return 7000200, which the main loop takes as `f_vfo[cur_vfo]`. -/
theorem C26_sweep_passes_upper_edge :
    (scan_load_edges radio_edges_close).scanfreq = [7000000, 7000100] ∧
    (scan_band_sweep radio_edges_close.s_threshold 7000000 7000100 (fun _ => step_key 0)
        { key := 0, df := 0, tuned := [] }).map (fun b => (b.key, b.tuned.reverse))
      = some (0, [7000000, 7000100, 7000200]) ∧
    (scan_band radio_edges_close [sweep_key_at 1 2]).map (fun r => (r.value, r.key))
      = some (7000200, 2) ∧
    (main_case71 radio_edges_close [sweep_key_at 1 2]).map (fun r => r.f_vfo)
      = some [7000200, 7100000] := by
  decide

/-- C29: with 7100 kHz shown as first and 7050 kHz as second frequency and both
confirmed, the set-scan-limits action ends with `scanfreq = {7050000, 7100000}`
in memory, but the records of the band still hold 7100000 (edge 0) and 7050000
(edge 1), which is what the next band scan loads; the final store writes the
record addresses 554 and 558 as frequencies to the byte addresses given by the
low 16 bits of the two frequencies. -/
theorem C29_limits_not_stored_in_order :
    radio_limits_set.scanfreq = [7050000, 7100000] ∧
    load_frequency1 radio_limits_set.eeprom 554 = 7100000 ∧
    load_frequency1 radio_limits_set.eeprom 558 = 7050000 ∧
    (scan_load_edges radio_limits_set).scanfreq = [7100000, 7050000] ∧
    load_frequency1 radio_limits_set.eeprom (int_of_u32 7050000) = 554 ∧
    load_frequency1 radio_limits_set.eeprom (int_of_u32 7100000) = 558 := by
  decide

/-- What menu result 70 leaves in `f_vfo`. -/
theorem main_case70_f_vfo (s : Radio) (passes : List (Nat → SlotEnv)) :
    (main_case70 s passes).map (fun r => r.f_vfo) =
      (scan_mem s passes).map (fun r =>
        if int_of_u32 r.value > 0 ∧
            is_mem_freq_ok (load_frequency0 r.radio (int_of_u32 r.value)) r.radio.cur_band ≠ 0
          then arr_set r.radio.f_vfo r.radio.cur_vfo (load_frequency0 r.radio (int_of_u32 r.value))
          else r.radio.f_vfo) := by
  unfold main_case70
  cases scan_mem s passes with
  | none => simp only [Option.map_none']
  | some r => simp only [Option.map_some', set_frequency1, set_frequency2]

/-- What menu result 71 leaves in `f_vfo`. -/
theorem main_case71_f_vfo (s : Radio) (sweeps : List (Nat → StepEnv)) :
    (main_case71 s sweeps).map (fun r => r.f_vfo) =
      (scan_band s sweeps).map (fun r =>
        if is_mem_freq_ok r.value r.radio.cur_band ≠ 0
          then arr_set r.radio.f_vfo r.radio.cur_vfo r.value else r.radio.f_vfo) := by
  unfold main_case71
  cases scan_band s sweeps with
  | none => simp only [Option.map_none']
  | some r => simp only [Option.map_some', set_frequency1, set_frequency2]

theorem no_band_has_minus_one (b : Nat) (hb : b < 6) : is_mem_freq_ok 4294967295 (b : Int) = 0 := by
  interval_cases b <;> decide

/-- C22: for every radio state, when `scan` in memory mode ends by a cancel
key (key 1 or 3) it returns -1 (4294967295 as `unsigned long`), which as `int`
is -1 and not a memory index above 0, so after menu result 70 the main loop has
`f_vfo` exactly as before the scan; and, independently, when `scan` in band
mode ends by a cancel key it returns -1, which fails `is_mem_freq_ok` for the
band `b` in 0..5, so after menu result 71 the main loop has `f_vfo` exactly as
before the scan. -/
theorem C22_cancel_keeps_vfos (s : Radio) :
    (∀ (passes : List (Nat → SlotEnv)) (k : Int),
      (scan_mem s passes).map (fun r => r.key) = some k → (k = 1 ∨ k = 3) →
        (scan_mem s passes).map (fun r => r.value) = some 4294967295 ∧
        int_of_u32 4294967295 = -1 ∧
        (main_case70 s passes).map (fun r => r.f_vfo) = some s.f_vfo) ∧
    (∀ (sweeps : List (Nat → StepEnv)) (k : Int) (b : Nat), b < 6 → s.cur_band = (b : Int) →
      (scan_band s sweeps).map (fun r => r.key) = some k → (k = 1 ∨ k = 3) →
        (scan_band s sweeps).map (fun r => r.value) = some 4294967295 ∧
        is_mem_freq_ok 4294967295 (b : Int) = 0 ∧
        (main_case71 s sweeps).map (fun r => r.f_vfo) = some s.f_vfo) := by
  have hminus : u32_of_int (-1) = 4294967295 := by decide
  have hint : int_of_u32 4294967295 = -1 := by decide
  constructor
  · intro passes k1 hm hk1
    refine ⟨?_, hint, ?_⟩
    · unfold scan_mem at hm ⊢
      cases hout : scan_mem_outer s passes scan_mem_init with
      | none => rw [hout] at hm; simp at hm
      | some m =>
        rw [hout] at hm
        simp only [Option.map_some', Option.some.injEq] at hm ⊢
        rw [if_neg (by omega), hminus]
    · rw [main_case70_f_vfo]
      unfold scan_mem at hm ⊢
      cases hout : scan_mem_outer s passes scan_mem_init with
      | none => rw [hout] at hm; simp at hm
      | some m =>
        rw [hout] at hm
        simp only [Option.map_some', Option.some.injEq] at hm ⊢
        rw [if_neg (show ¬ m.key = 2 by omega), hminus, hint]
        rw [if_neg (fun h => absurd h.1 (by decide))]
  · intro sweeps k2 b hb hcb hs hk2
    have hnb := no_band_has_minus_one b hb
    refine ⟨?_, hnb, ?_⟩
    · unfold scan_band at hs ⊢
      cases hout : scan_band_outer s.s_threshold (arr_get (scan_load_edges s).scanfreq 0)
          (arr_get (scan_load_edges s).scanfreq 1) sweeps { key := 0, df := 0, tuned := [] } with
      | none => rw [hout] at hs; simp at hs
      | some m =>
        rw [hout] at hs
        simp only [Option.map_some', Option.some.injEq] at hs ⊢
        rw [if_neg (by omega), hminus]
    · rw [main_case71_f_vfo]
      unfold scan_band at hs ⊢
      cases hout : scan_band_outer s.s_threshold (arr_get (scan_load_edges s).scanfreq 0)
          (arr_get (scan_load_edges s).scanfreq 1) sweeps { key := 0, df := 0, tuned := [] } with
      | none => rw [hout] at hs; simp at hs
      | some m =>
        rw [hout] at hs
        simp only [Option.map_some', Option.some.injEq] at hs ⊢
        rw [if_neg (show ¬ m.key = 2 by omega), hminus, hcb, hnb]
        rw [if_neg (by decide)]

theorem is_mem_freq_ok_zero (b : Nat) (hb : b < 6) : is_mem_freq_ok 0 (b : Int) = 0 := by
  interval_cases b <;> decide

theorem scan_mem_visit_skip (s : Radio) (e : SlotEnv) (m : MemScan)
    (h : scan_mem_slot_ok s m = false) :
    scan_mem_visit s e m = some (scan_mem_next e m e.skip_key m.tuned
      { slot := m.t1, tuned := false, pause_passes := 0, dwell_passes := 0 }) := by
  unfold scan_mem_visit
  rw [h]
  rfl

theorem scan_mem_slot_ok_empty (s : Radio) (b : Nat) (m : MemScan) (hb : b < 6)
    (hcb : s.cur_band = (b : Int)) (h : load_frequency0 s m.t1 = 0) :
    scan_mem_slot_ok s m = false := by
  unfold scan_mem_slot_ok
  rw [h, hcb, is_mem_freq_ok_zero b hb]
  simp

/-- Over an empty band the loop over the slots only takes the skip branch. -/
theorem scan_mem_inner_empty (s : Radio) (b : Nat) (env : Nat → SlotEnv) (hb : b < 6)
    (hcb : s.cur_band = (b : Int))
    (hempty : ∀ m : Int, 0 ≤ m → m ≤ 15 → load_frequency0 s m = 0) :
    ∀ (n : Nat) (m : MemScan), m.t1 = 15 - (n : Int) → n ≤ 15 → m.tuned = [] →
      (∀ st ∈ m.steps, st.tuned = false ∧ st.pause_passes = 0 ∧ st.dwell_passes = 0) →
      ∃ r, scan_mem_inner s env n m = some r ∧ r.tuned = [] ∧
        (∀ st ∈ r.steps, st.tuned = false ∧ st.pause_passes = 0 ∧ st.dwell_passes = 0) ∧
        (m.key = 0 → 0 < n → m.steps.length < r.steps.length) ∧
        m.steps.length ≤ r.steps.length
  | 0, m, ht, _, htun, hst => by
    refine ⟨m, ?_, htun, hst, fun _ h => absurd h (by decide), le_refl _⟩
    unfold scan_mem_inner
    rw [if_neg]
    simp only [MAXMEM]
    omega
  | n + 1, m, ht, hn, htun, hst => by
    unfold scan_mem_inner
    by_cases hc : m.t1 < MAXMEM ∧ m.key = 0
    · rw [if_pos hc]
      have hslot := scan_mem_slot_ok_empty s b m hb hcb (hempty m.t1 (by omega) (by omega))
      rw [scan_mem_visit_skip s _ m hslot, Option.some_bind]
      obtain ⟨r, hr, hrt, hrs, _, hlen⟩ := scan_mem_inner_empty s b env hb hcb hempty n
        (scan_mem_next (env m.t1.toNat) m (env m.t1.toNat).skip_key m.tuned
          { slot := m.t1, tuned := false, pause_passes := 0, dwell_passes := 0 })
        (by simp only [scan_mem_next, wrap_int]; omega) (by omega) htun
        (by
          intro st hmem
          simp only [scan_mem_next, List.mem_cons] at hmem
          rcases hmem with h | h
          · rw [h]; exact ⟨rfl, rfl, rfl⟩
          · exact hst st h)
      refine ⟨r, hr, hrt, hrs, ?_, ?_⟩
      · intro _ _
        simp only [scan_mem_next, List.length_cons] at hlen
        omega
      · simp only [scan_mem_next, List.length_cons] at hlen
        omega
    · rw [if_neg hc]
      refine ⟨m, rfl, htun, hst, ?_, le_refl _⟩
      intro hk _
      exfalso
      apply hc
      simp only [MAXMEM]
      exact ⟨by omega, hk⟩

/-- C27: for every band `b` in 0..5 whose memory slots all read 0, every slot
fails `is_mem_freq_ok`, and a pass of the memory scan, whatever the environment
does, takes the skip branch at every slot it visits: it ends, synthesizer A is
never tuned, and the squelch pause loop and the dwell loop make no pass. -/
theorem C27_empty_band_scan (s : Radio) (b : Nat) (env : Nat → SlotEnv) (hb : b < 6)
    (hcb : s.cur_band = (b : Int))
    (hempty : ∀ m : Int, 0 ≤ m → m ≤ 15 → load_frequency0 s m = 0) :
    (∀ m : Int, 0 ≤ m → m ≤ 15 → is_mem_freq_ok (load_frequency0 s m) (b : Int) = 0) ∧
    ∃ r, scan_mem_pass s env scan_mem_init = some r ∧ r.tuned = [] ∧ r.steps ≠ [] ∧
      ∀ st ∈ r.steps, st.tuned = false ∧ st.pause_passes = 0 ∧ st.dwell_passes = 0 := by
  constructor
  · intro m h0 h15
    rw [hempty m h0 h15]
    exact is_mem_freq_ok_zero b hb
  · obtain ⟨r, hr, hrt, hrs, hlt, _⟩ := scan_mem_inner_empty s b env hb hcb hempty 15
      { scan_mem_init with t1 := 0 } (by decide) (by decide) rfl
      (by intro st h; simp [scan_mem_init] at h)
    refine ⟨r, hr, hrt, ?_, hrs⟩
    have := hlt rfl (by decide)
    intro h
    rw [h] at this
    simp at this

theorem C22_cancel_keeps_vfos_witness :
    ((scan_mem radio_mem_slots01 [pass_key_at 1 3]).map (fun r => r.value) = some 4294967295 ∧
      int_of_u32 4294967295 = -1 ∧
      (main_case70 radio_mem_slots01 [pass_key_at 1 3]).map (fun r => r.f_vfo)
        = some radio_mem_slots01.f_vfo) ∧
    ((scan_band radio_mem_slots01 [sweep_key_at 1 1]).map (fun r => r.value)
        = some 4294967295 ∧
      is_mem_freq_ok 4294967295 ((2 : Nat) : Int) = 0 ∧
      (main_case71 radio_mem_slots01 [sweep_key_at 1 1]).map (fun r => r.f_vfo)
        = some radio_mem_slots01.f_vfo) ∧
    ((scan_mem radio_edges_desc [pass_key_at 1 1]).map (fun r => r.value) = some 4294967295 ∧
      int_of_u32 4294967295 = -1 ∧
      (main_case70 radio_edges_desc [pass_key_at 1 1]).map (fun r => r.f_vfo)
        = some radio_edges_desc.f_vfo) :=
  ⟨(C22_cancel_keeps_vfos radio_mem_slots01).1 [pass_key_at 1 3] 3 (by decide) (by decide),
   (C22_cancel_keeps_vfos radio_mem_slots01).2 [sweep_key_at 1 1] 1 2 (by decide) rfl
     (by decide) (by decide),
   (C22_cancel_keeps_vfos radio_edges_desc).1 [pass_key_at 1 1] 1 (by decide) (by decide)⟩

theorem C27_empty_band_scan_witness :
    (∀ m : Int, 0 ≤ m → m ≤ 15 →
      is_mem_freq_ok (load_frequency0 radio_band2 m) ((2 : Nat) : Int) = 0) ∧
    ∃ r, scan_mem_pass radio_band2 (fun _ => slot_quiet) scan_mem_init = some r ∧
      r.tuned = [] ∧ r.steps ≠ [] ∧
      ∀ st ∈ r.steps, st.tuned = false ∧ st.pause_passes = 0 ∧ st.dwell_passes = 0 :=
  C27_empty_band_scan radio_band2 2 (fun _ => slot_quiet) (by decide) rfl
    (by
      intro m _ _
      simp [load_frequency0, load_frequency1, eeprom_read_byte, add32, radio_band2, power_on])

/-! ## VFO selection -/

/-- C30: after the startup load `cur_vfo` is 0 or 1 and `alt_vfo = 1 - cur_vfo`
for every EEPROM content; but selecting VFO A (menu result 20) while VFO A is
the operating VFO leaves `cur_vfo = 0` and `alt_vfo = 0`, and the display then
shows 7000 kHz, the frequency of the operating VFO, as companion. -/
theorem C30_select_same_vfo :
    (∀ e : Eeprom, ((startup (power_on e)).cur_vfo = 0 ∨ (startup (power_on e)).cur_vfo = 1) ∧
      (startup (power_on e)).alt_vfo = 1 - (startup (power_on e)).cur_vfo) ∧
    radio_started.cur_vfo = 0 ∧ radio_started.alt_vfo = 1 ∧
    radio_started.f_vfo = [7000000, 7100000] ∧
    (main_vfo_select radio_started 20).cur_vfo = 0 ∧
    (main_vfo_select radio_started 20).alt_vfo = 0 ∧
    (main_menu_end (main_vfo_select radio_started 20)).companion_shown.head? = some 7000000 ∧
    (main_vfo_select radio_started 21).cur_vfo = 1 ∧
    (main_vfo_select radio_started 21).alt_vfo = 0 := by
  refine ⟨?_, by decide, by decide, by decide, by decide, by decide, by decide, by decide,
    by decide⟩
  intro e
  show ((startup_vfo (startup_band (power_on e))).cur_vfo = 0 ∨
      (startup_vfo (startup_band (power_on e))).cur_vfo = 1) ∧
    (startup_vfo (startup_band (power_on e))).alt_vfo
      = 1 - (startup_vfo (startup_band (power_on e))).cur_vfo
  simp only [startup_vfo, load_last_vfo]
  split_ifs <;> omega

end Midi6
